import Mathlib

/-!
Shallow embedding of the software-shop storefront (src/db.py, src/app.py).

The persistent SQLite database is modelled as an explicit record of tables
(lists of rows in rowid order); every db.py function that mutates the store
becomes a pure state transformer returning `Except DbErr`.  SQLite `REAL`
columns (prices, totals, rating averages) are modelled as `ℚ`, `INTEGER`
columns as `Int`/`Nat`, and `TIMESTAMP DEFAULT CURRENT_TIMESTAMP` as a `Nat`
clock carried in the state (`now`).

Two facts about the concrete runtime that the embedding reflects:
* `get_db_connection` (db.py:11) never issues `PRAGMA foreign_keys = ON`, and
  SQLite keeps foreign-key enforcement OFF by default, so the
  `ON DELETE RESTRICT` clauses in the schema are never enforced: the modelled
  `delete_category` / `delete_software` always delete.  `CHECK` and `UNIQUE`
  constraints, by contrast, are always enforced by SQLite and are modelled
  (a violated constraint raises `sqlite3.IntegrityError`; since every db.py
  function commits only at the end and closes the connection on exception,
  a failed operation leaves the store unchanged, which the `Except` model
  captures).
* In `get_purchases_with_items` (db.py:999) the query selects both
  `pi.*` (which contains the snapshot column `purchase_items.software_name`)
  and `s.name AS software_name`; `sqlite3.Row` resolves a duplicated column
  name to the FIRST matching column, so `row["software_name"]` yields the
  snapshot, not the live catalog name.
-/

deriving instance DecidableEq for Except

namespace SoftwareShop

/-- Row of the `software` table (db.py:49). -/
structure Software where
  id : Nat
  name : String
  description : String
  price : ℚ
  categoryId : Nat
  developer : String
  downloads : Int
  ratingAvg : ℚ
  imageUrl : Option String
  deriving Repr, DecidableEq

/-- Row of the `categories` table (db.py:39). -/
structure Category where
  id : Nat
  name : String
  description : Option String
  deriving Repr, DecidableEq

/-- Row of the `cart` table (db.py:66); one cart per user (`user_id UNIQUE`). -/
structure Cart where
  id : Nat
  userId : Nat
  totalPrice : ℚ
  updatedAt : Nat
  deriving Repr, DecidableEq

/-- Row of the `cart_items` table (db.py:78). -/
structure CartItem where
  id : Nat
  cartId : Nat
  softwareId : Nat
  quantity : Int
  priceAtAdd : ℚ
  addedAt : Nat
  deriving Repr, DecidableEq

/-- Row of the `purchase_history` table (db.py:107). -/
structure Purchase where
  id : Nat
  userId : Nat
  totalPrice : ℚ
  paymentMethod : Option String
  status : String
  purchasedAt : Nat
  deriving Repr, DecidableEq

/-- Row of the `purchase_items` table (db.py:120): the immutable snapshot of a
cart line at purchase time. -/
structure PurchaseItem where
  id : Nat
  purchaseId : Nat
  softwareId : Nat
  softwareName : String
  developer : String
  quantity : Int
  priceAtPurchase : ℚ
  deriving Repr, DecidableEq

/-- Row of the `reviews` table (db.py:135); `UNIQUE(user_id, software_id)`. -/
structure Review where
  id : Nat
  userId : Nat
  softwareId : Nat
  rating : Int
  comment : Option String
  createdAt : Nat
  deriving Repr, DecidableEq

/-- Errors surfaced by the db layer.  Python raises `ValueError` with distinct
messages (modelled by the first four constructors), `sqlite3.IntegrityError`
for violated CHECK/UNIQUE constraints, and `TypeError` when a `fetchone()`
result of `None` is subscripted. -/
inductive DbErr where
  | cartNotFound
  | softwareNotFound
  | cartItemNotFound
  | cartEmpty
  | integrityError
  | noneSubscript
  deriving Repr, DecidableEq

/-- The whole SQLite store.  The `next*Id` fields model `AUTOINCREMENT`
counters; `now` models `CURRENT_TIMESTAMP`. -/
structure DBState where
  categories : List Category
  software : List Software
  carts : List Cart
  cartItems : List CartItem
  purchases : List Purchase
  purchaseItems : List PurchaseItem
  reviews : List Review
  nextCartItemId : Nat
  nextPurchaseId : Nat
  nextPurchaseItemId : Nat
  nextReviewId : Nat
  now : Nat
  deriving Repr, DecidableEq

/-- `SELECT * FROM cart WHERE user_id = ?` (first row). -/
def findCartByUser (s : DBState) (userId : Nat) : Option Cart :=
  s.carts.find? (fun c => c.userId == userId)

/-- `SELECT * FROM software WHERE id = ?` (first row). -/
def findSoftware (s : DBState) (softwareId : Nat) : Option Software :=
  s.software.find? (fun sw => sw.id == softwareId)

/-- `SELECT COALESCE(SUM(quantity * price_at_add), 0) FROM cart_items
WHERE cart_id = ?` — the recomputed cart total. -/
def cartTotal (items : List CartItem) (cartId : Nat) : ℚ :=
  ((items.filter (fun ci => ci.cartId == cartId)).map
    (fun ci => (ci.quantity : ℚ) * ci.priceAtAdd)).sum

/-- `UPDATE cart SET total_price = ?, updated_at = CURRENT_TIMESTAMP
WHERE id = ?`. -/
def setCartTotal (carts : List Cart) (cartId : Nat) (total : ℚ) (now : Nat) :
    List Cart :=
  carts.map (fun c =>
    if c.id == cartId then { c with totalPrice := total, updatedAt := now }
    else c)

/-- The cart-total recomputation + commit shared by `add_to_cart`,
`update_cart_item_quantity` and `remove_from_cart` (db.py:775, 825, 854),
including the table's `CHECK(total_price >= 0)`. -/
def commitCart (s : DBState) (cartId : Nat) (items : List CartItem)
    (nextId : Nat) : Except DbErr DBState :=
  if cartTotal items cartId < 0 then .error .integrityError
  else .ok { s with cartItems := items, nextCartItemId := nextId,
                    carts := setCartTotal s.carts cartId
                      (cartTotal items cartId) s.now }

/-- `add_to_cart` (db.py:732): look up the user's cart and the item's current
price; bump the quantity of an existing (cart, item) line or insert a new line
snapshotting the current price; recompute the cart total.  The table's
`CHECK(quantity > 0)` and `CHECK(price_at_add >= 0)` are enforced on write. -/
def add_to_cart (s : DBState) (userId softwareId : Nat) (quantity : Int) :
    Except DbErr (DBState × Nat) :=
  match findCartByUser s userId with
  | none => .error .cartNotFound
  | some cart =>
    match findSoftware s softwareId with
    | none => .error .softwareNotFound
    | some sw =>
      match s.cartItems.find?
          (fun ci => ci.cartId == cart.id && ci.softwareId == softwareId) with
      | some existing =>
        if existing.quantity + quantity ≤ 0 then .error .integrityError
        else
          (commitCart s cart.id
            (s.cartItems.map (fun ci =>
              if ci.id == existing.id then
                { ci with quantity := existing.quantity + quantity }
              else ci))
            s.nextCartItemId).map (fun s' => (s', existing.id))
      | none =>
        if quantity ≤ 0 then .error .integrityError
        else if sw.price < 0 then .error .integrityError
        else
          (commitCart s cart.id
            (s.cartItems ++
              [⟨s.nextCartItemId, cart.id, softwareId, quantity, sw.price,
                s.now⟩])
            (s.nextCartItemId + 1)).map (fun s' => (s', s.nextCartItemId))

/-- `remove_from_cart` (db.py:837): delete the line by id (ValueError if
absent) and recompute the owning cart's total. -/
def remove_from_cart (s : DBState) (itemId : Nat) : Except DbErr DBState :=
  match s.cartItems.find? (fun ci => ci.id == itemId) with
  | none => .error .cartItemNotFound
  | some item =>
    commitCart s item.cartId
      (s.cartItems.filter (fun ci => !(ci.id == itemId))) s.nextCartItemId

/-- `update_cart_item_quantity` (db.py:806): a quantity ≤ 0 delegates to
`remove_from_cart`; otherwise `item['cart_id']` is read from the fetched row —
which is `None` when the id is absent, so the subscript raises `TypeError` —
then the quantity is updated and the total recomputed. -/
def update_cart_item_quantity (s : DBState) (itemId : Nat) (quantity : Int) :
    Except DbErr DBState :=
  if quantity ≤ 0 then remove_from_cart s itemId
  else
    match s.cartItems.find? (fun ci => ci.id == itemId) with
    | none => .error .noneSubscript
    | some item =>
      commitCart s item.cartId
        (s.cartItems.map (fun ci =>
          if ci.id == itemId then { ci with quantity := quantity } else ci))
        s.nextCartItemId

/-- `clear_cart` (db.py:866). -/
def clear_cart (s : DBState) (userId : Nat) : Except DbErr DBState :=
  match findCartByUser s userId with
  | none => .error .cartNotFound
  | some cart =>
    .ok { s with
      cartItems := s.cartItems.filter (fun ci => !(ci.cartId == cart.id)),
      carts := setCartTotal s.carts cart.id 0 s.now }

/-- `delete_category` (db.py:423).  `get_db_connection` (db.py:11) never
issues `PRAGMA foreign_keys = ON`, and SQLite keeps foreign-key enforcement
OFF by default, so the schema's `ON DELETE RESTRICT` on
`software.category_id` is NOT enforced: the DELETE always succeeds, even
while software rows still reference the category (the function's
`except sqlite3.IntegrityError` handler is dead code). -/
def delete_category (s : DBState) (categoryId : Nat) : Except DbErr DBState :=
  .ok { s with
    categories := s.categories.filter (fun c => !(c.id == categoryId)) }

/-- `delete_software` (db.py:554): same missing-pragma situation — the DELETE
always succeeds, even while `purchase_items` or `cart_items` rows (both
declared `ON DELETE RESTRICT`) still reference the software row. -/
def delete_software (s : DBState) (softwareId : Nat) : Except DbErr DBState :=
  .ok { s with
    software := s.software.filter (fun sw => !(sw.id == softwareId)) }

/-! ### Cart total invariant machinery (C1) -/

/-- The derived-total invariant of one cart row: `total_price` equals the sum
of `quantity × price_at_add` over the cart's lines. -/
def cartInv (items : List CartItem) (c : Cart) : Prop :=
  c.totalPrice = cartTotal items c.id

/-- The invariant for every cart row in the store. -/
def allCartsInv (s : DBState) : Prop :=
  ∀ c ∈ s.carts, cartInv s.cartItems c

instance (items : List CartItem) (c : Cart) : Decidable (cartInv items c) := by
  unfold cartInv; exact inferInstance

instance (s : DBState) : Decidable (allCartsInv s) := by
  unfold allCartsInv; exact inferInstance

/-- Primary-key well-formedness of `cart_items`: row ids are pairwise distinct
and below the autoincrement counter (which SQLite guarantees). -/
def cartWF (s : DBState) : Prop :=
  (s.cartItems.map (fun ci => ci.id)).Nodup ∧
  ∀ ci ∈ s.cartItems, ci.id < s.nextCartItemId

instance (s : DBState) : Decidable (cartWF s) := by
  unfold cartWF; exact inferInstance

lemma cartTotal_cons (a : CartItem) (t : List CartItem) (cid : Nat) :
    cartTotal (a :: t) cid =
      (if a.cartId == cid then (a.quantity : ℚ) * a.priceAtAdd else 0) +
        cartTotal t cid := by
  by_cases h : (a.cartId == cid) = true
  · simp [cartTotal, List.filter_cons, h]
  · simp only [Bool.not_eq_true] at h
    simp [cartTotal, List.filter_cons, h]

lemma cartTotal_append_ne (items : List CartItem) (item : CartItem) (cid : Nat)
    (h : item.cartId ≠ cid) :
    cartTotal (items ++ [item]) cid = cartTotal items cid := by
  unfold cartTotal
  rw [List.filter_append]
  have hnil : List.filter (fun ci => ci.cartId == cid) [item] = [] := by
    simp [List.filter_cons, h]
  rw [hnil, List.append_nil]

lemma cartTotal_map_update_ne (g : CartItem → CartItem)
    (hg : ∀ ci, (g ci).cartId = ci.cartId)
    (itemId tcid cid : Nat) (hne : cid ≠ tcid) (items : List CartItem)
    (hbelong : ∀ ci ∈ items, ci.id = itemId → ci.cartId = tcid) :
    cartTotal (items.map (fun ci => if ci.id == itemId then g ci else ci)) cid
      = cartTotal items cid := by
  induction items with
  | nil => rfl
  | cons a t ih =>
    have ht : ∀ ci ∈ t, ci.id = itemId → ci.cartId = tcid :=
      fun ci hci => hbelong ci (List.mem_cons_of_mem _ hci)
    rw [List.map_cons, cartTotal_cons, cartTotal_cons, ih ht]
    by_cases ha : a.id = itemId
    · have hac : a.cartId = tcid := hbelong a (List.mem_cons_self _ _) ha
      have hbeqid : (a.id == itemId) = true := by simpa using ha
      have h1 : (a.cartId == cid) = false := by
        simp [hac]; exact fun hcontra => hne hcontra.symm
      have h2 : ((g a).cartId == cid) = false := by
        simp [hg a, hac]; exact fun hcontra => hne hcontra.symm
      simp [hbeqid, h1, h2]
    · have hbeqid : (a.id == itemId) = false := by simpa using ha
      simp [hbeqid]

lemma cartTotal_filter_ne (itemId tcid cid : Nat) (hne : cid ≠ tcid)
    (items : List CartItem)
    (hbelong : ∀ ci ∈ items, ci.id = itemId → ci.cartId = tcid) :
    cartTotal (items.filter (fun ci => !(ci.id == itemId))) cid
      = cartTotal items cid := by
  induction items with
  | nil => rfl
  | cons a t ih =>
    have ht : ∀ ci ∈ t, ci.id = itemId → ci.cartId = tcid :=
      fun ci hci => hbelong ci (List.mem_cons_of_mem _ hci)
    by_cases ha : a.id = itemId
    · have hac : a.cartId = tcid := hbelong a (List.mem_cons_self _ _) ha
      have h1 : (a.cartId == cid) = false := by
        simp [hac]; exact fun hcontra => hne hcontra.symm
      have h2 : (!(a.id == itemId)) = false := by simp [ha]
      rw [List.filter_cons, h2]
      simp only [Bool.false_eq_true, if_false]
      rw [ih ht, cartTotal_cons, h1]
      simp
    · have h2 : (!(a.id == itemId)) = true := by simpa using ha
      rw [List.filter_cons, h2]
      simp only [if_true]
      rw [cartTotal_cons, cartTotal_cons, ih ht]
      try simp

lemma commitCart_ok (s : DBState) (cartId : Nat) (items : List CartItem)
    (nid : Nat) (s' : DBState) (h : commitCart s cartId items nid = .ok s') :
    s' = { s with cartItems := items, nextCartItemId := nid,
                  carts := setCartTotal s.carts cartId
                    (cartTotal items cartId) s.now } := by
  unfold commitCart at h
  split at h
  · cases h
  · cases h; rfl

lemma setCartTotal_inv (carts : List Cart) (cid : Nat)
    (itemsOld itemsNew : List CartItem) (now : Nat)
    (hframe : ∀ c ∈ carts, c.id ≠ cid →
      cartTotal itemsNew c.id = cartTotal itemsOld c.id)
    (hinv : ∀ c ∈ carts, cartInv itemsOld c) :
    ∀ c ∈ setCartTotal carts cid (cartTotal itemsNew cid) now,
      cartInv itemsNew c := by
  intro c' hc'
  unfold setCartTotal at hc'
  obtain ⟨c, hc, heq⟩ := List.mem_map.mp hc'
  by_cases h : (c.id == cid) = true
  · rw [if_pos h] at heq
    have hid : c.id = cid := by simpa using h
    unfold cartInv
    rw [← heq]
    simp [hid]
  · rw [if_neg h] at heq
    have hid : c.id ≠ cid := by simpa using h
    subst heq
    unfold cartInv
    rw [hframe c hc hid]
    exact hinv c hc

lemma cartWF_map_id_pres (s : DBState) (hwf : cartWF s)
    (g : CartItem → CartItem) (hg : ∀ ci, (g ci).id = ci.id)
    (itemId : Nat) :
    ((s.cartItems.map (fun ci => if ci.id == itemId then g ci else ci)).map
        (fun ci => ci.id)).Nodup ∧
    ∀ ci ∈ s.cartItems.map (fun ci => if ci.id == itemId then g ci else ci),
      ci.id < s.nextCartItemId := by
  have hids : (s.cartItems.map (fun ci => if ci.id == itemId then g ci else ci)).map
      (fun ci => ci.id) = s.cartItems.map (fun ci => ci.id) := by
    rw [List.map_map]
    apply List.map_congr_left
    intro ci _
    by_cases hci : (ci.id == itemId) = true <;> simp [Function.comp, hci, hg]
  constructor
  · rw [hids]; exact hwf.1
  · intro ci' hci'
    obtain ⟨ci, hci, heq⟩ := List.mem_map.mp hci'
    have : ci'.id = ci.id := by
      rw [← heq]
      by_cases hc : (ci.id == itemId) = true <;> simp [hc, hg]
    rw [this]
    exact hwf.2 ci hci

lemma commitCart_wf_inv (s : DBState) (cid : Nat) (items : List CartItem)
    (nid : Nat) (s' : DBState)
    (hcm : commitCart s cid items nid = .ok s')
    (hnodup : (items.map (fun ci => ci.id)).Nodup)
    (hbound : ∀ ci ∈ items, ci.id < nid)
    (hframe : ∀ c ∈ s.carts, c.id ≠ cid →
      cartTotal items c.id = cartTotal s.cartItems c.id)
    (hinv : allCartsInv s) :
    cartWF s' ∧ allCartsInv s' := by
  rw [commitCart_ok s cid items nid s' hcm]
  exact ⟨⟨hnodup, hbound⟩,
    setCartTotal_inv s.carts cid s.cartItems items s.now hframe hinv⟩

lemma except_map_ok {ε α β : Type} (f : α → β) (x : Except ε α) (b : β)
    (h : x.map f = .ok b) : ∃ a, x = .ok a ∧ f a = b := by
  cases x with
  | error e => simp [Except.map] at h
  | ok a => exact ⟨a, rfl, by simpa [Except.map] using h⟩

lemma addToCart_ok (s : DBState) (u sid : Nat) (q : Int) (s' : DBState)
    (iid : Nat) (hwf : cartWF s) (hinv : allCartsInv s)
    (h : add_to_cart s u sid q = .ok (s', iid)) :
    cartWF s' ∧ allCartsInv s' := by
  unfold add_to_cart at h
  split at h
  · cases h
  rename_i cart hc
  split at h
  · cases h
  rename_i sw hsw
  split at h
  case _ existing he =>
    have hmem := List.mem_of_find?_eq_some he
    have hprop := List.find?_some he
    have hcartid : existing.cartId = cart.id := by
      simp only [Bool.and_eq_true, beq_iff_eq] at hprop
      exact hprop.1
    have hbelong : ∀ ci ∈ s.cartItems, ci.id = existing.id →
        ci.cartId = cart.id := by
      intro ci hci hid
      have hceq : ci = existing := List.inj_on_of_nodup_map hwf.1 hci hmem hid
      rw [hceq, hcartid]
    split at h
    · cases h
    obtain ⟨s1, hcm, hfa⟩ := except_map_ok _ _ _ h
    injection hfa with h1 h2
    subst h1
    obtain ⟨hn, hb⟩ := cartWF_map_id_pres s hwf
      (fun ci => { ci with quantity := existing.quantity + q })
      (fun _ => rfl) existing.id
    exact commitCart_wf_inv s cart.id _ _ _ hcm hn hb
      (fun c hc hne => cartTotal_map_update_ne
        (fun ci => { ci with quantity := existing.quantity + q })
        (fun _ => rfl) existing.id cart.id c.id hne s.cartItems hbelong)
      hinv
  case _ he =>
    split at h
    · cases h
    split at h
    · cases h
    obtain ⟨s1, hcm, hfa⟩ := except_map_ok _ _ _ h
    injection hfa with h1 h2
    subst h1
    refine commitCart_wf_inv s cart.id _ _ _ hcm ?_ ?_ ?_ hinv
    · rw [List.map_append, List.nodup_append]
      refine ⟨hwf.1, List.nodup_singleton _, ?_⟩
      intro a ha hb
      obtain ⟨ci, hci, rfl⟩ := List.mem_map.mp ha
      have h1 := hwf.2 ci hci
      have h2 : ci.id = s.nextCartItemId := by simpa using hb
      omega
    · intro ci hci
      rcases List.mem_append.mp hci with hl | hr
      · exact Nat.lt_succ_of_lt (hwf.2 ci hl)
      · have hci2 : ci =
            ⟨s.nextCartItemId, cart.id, sid, q, sw.price, s.now⟩ := by
          simpa using hr
        rw [hci2]
        exact Nat.lt_succ_self _
    · intro c hc hne
      exact cartTotal_append_ne _ _ _ (Ne.symm hne)

lemma removeFromCart_ok (s : DBState) (itemId : Nat) (s' : DBState)
    (hwf : cartWF s) (hinv : allCartsInv s)
    (h : remove_from_cart s itemId = .ok s') :
    cartWF s' ∧ allCartsInv s' := by
  unfold remove_from_cart at h
  split at h
  · cases h
  rename_i item he
  have hmem := List.mem_of_find?_eq_some he
  have hprop := List.find?_some he
  have hid : item.id = itemId := by simpa using hprop
  have hbelong : ∀ ci ∈ s.cartItems, ci.id = itemId →
      ci.cartId = item.cartId := by
    intro ci hci hcid
    have hceq : ci = item :=
      List.inj_on_of_nodup_map hwf.1 hci hmem (by rw [hcid, hid])
    rw [hceq]
  refine commitCart_wf_inv s item.cartId _ _ _ h ?_ ?_ ?_ hinv
  · exact ((List.filter_sublist _).map _).nodup hwf.1
  · intro ci hci
    exact hwf.2 ci (List.mem_of_mem_filter hci)
  · intro c hc hne
    exact cartTotal_filter_ne itemId item.cartId c.id hne s.cartItems hbelong

lemma updateCartItemQuantity_ok (s : DBState) (itemId : Nat) (q : Int)
    (s' : DBState) (hwf : cartWF s) (hinv : allCartsInv s)
    (h : update_cart_item_quantity s itemId q = .ok s') :
    cartWF s' ∧ allCartsInv s' := by
  unfold update_cart_item_quantity at h
  split at h
  · exact removeFromCart_ok s itemId s' hwf hinv h
  · split at h
    · cases h
    rename_i item he
    have hmem := List.mem_of_find?_eq_some he
    have hprop := List.find?_some he
    have hid : item.id = itemId := by simpa using hprop
    have hbelong : ∀ ci ∈ s.cartItems, ci.id = itemId →
        ci.cartId = item.cartId := by
      intro ci hci hcid
      have hceq : ci = item :=
        List.inj_on_of_nodup_map hwf.1 hci hmem (by rw [hcid, hid])
      rw [hceq]
    obtain ⟨hn, hb⟩ := cartWF_map_id_pres s hwf
      (fun ci => { ci with quantity := q }) (fun _ => rfl) itemId
    exact commitCart_wf_inv s item.cartId _ _ _ h hn hb
      (fun c hc hne => cartTotal_map_update_ne
        (fun ci => { ci with quantity := q }) (fun _ => rfl)
        itemId item.cartId c.id hne s.cartItems hbelong)
      hinv

/-- The three cart mutations of spec §4.1 (`addItem` / `setQuantity` /
`removeItem`, i.e. `add_to_cart`, `update_cart_item_quantity`,
`remove_from_cart`). -/
inductive CartOp where
  | add (userId softwareId : Nat) (quantity : Int)
  | setQty (itemId : Nat) (quantity : Int)
  | remove (itemId : Nat)
  deriving Repr, DecidableEq

def applyCartOp (s : DBState) : CartOp → Except DbErr DBState
  | .add u sid q => (add_to_cart s u sid q).map (fun r => r.1)
  | .setQty i q => update_cart_item_quantity s i q
  | .remove i => remove_from_cart s i

/-- The states reached after each operation of a sequence, as long as the
operations succeed (a failing operation rolls back and ends the run). -/
def runCartOps : DBState → List CartOp → List DBState
  | _, [] => []
  | s, op :: rest =>
    match applyCartOp s op with
    | .ok s' => s' :: runCartOps s' rest
    | .error _ => []

lemma applyCartOp_ok (s : DBState) (op : CartOp) (s' : DBState)
    (hwf : cartWF s) (hinv : allCartsInv s) (h : applyCartOp s op = .ok s') :
    cartWF s' ∧ allCartsInv s' := by
  cases op with
  | add u sid q =>
    simp only [applyCartOp] at h
    obtain ⟨r, ha, hfa⟩ := except_map_ok _ _ _ h
    obtain ⟨s1, iid⟩ := r
    exact hfa ▸ addToCart_ok s u sid q s1 iid hwf hinv ha
  | setQty i q => exact updateCartItemQuantity_ok s i q s' hwf hinv h
  | remove i => exact removeFromCart_ok s i s' hwf hinv h

/-- Claim C1: for every cart and every finite sequence of successful
`add_to_cart`, `update_cart_item_quantity` and `remove_from_cart` operations,
after each operation every cart's `total_price` equals the sum over its cart
lines of `quantity × price_at_add` (0 when the cart has no lines).  The
hypotheses state that the starting store satisfies the invariant and the
primary-key discipline of `cart_items` — both hold of any store SQLite
actually builds. -/
theorem C1_cart_total_invariant (s : DBState) (ops : List CartOp)
    (hwf : cartWF s) (hinv : allCartsInv s) :
    ∀ t ∈ runCartOps s ops, allCartsInv t := by
  induction ops generalizing s with
  | nil => intro t ht; cases ht
  | cons op rest ih =>
    intro t ht
    unfold runCartOps at ht
    cases ha : applyCartOp s op with
    | error e => rw [ha] at ht; cases ht
    | ok s1 =>
      rw [ha] at ht
      obtain ⟨hwf1, hinv1⟩ := applyCartOp_ok s op s1 hwf hinv ha
      rcases List.mem_cons.mp ht with rfl | hmem
      · exact hinv1
      · exact ih s1 hwf1 hinv1 t hmem

/-- Starting store for the C1 witness: one user cart and two catalog items,
as seeded at registration time. -/
def C1initState : DBState :=
  { categories := [⟨1, "Office", none⟩],
    software :=
      [⟨1, "Microsoft Word", "", 2490, 1, "Microsoft", 0, 0, none⟩,
       ⟨2, "Microsoft Excel", "", 3990, 1, "Microsoft", 0, 0, none⟩],
    carts := [⟨1, 1, 0, 0⟩], cartItems := [], purchases := [],
    purchaseItems := [], reviews := [], nextCartItemId := 1,
    nextPurchaseId := 1, nextPurchaseItemId := 1, nextReviewId := 1,
    now := 0 }

def C1ops : List CartOp :=
  [.add 1 1 2, .add 1 2 1, .setQty 1 5, .add 1 1 1, .remove 2, .setQty 1 0]

theorem C1_witness :
    (cartWF C1initState ∧ allCartsInv C1initState) ∧
      ∀ t ∈ runCartOps C1initState C1ops, allCartsInv t :=
  ⟨⟨by decide, by decide⟩,
    C1_cart_total_invariant C1initState C1ops (by decide) (by decide)⟩

/-! ### Checkout pipeline: `create_purchase` (db.py:893) and the purchase
read operations (C2, C3, C9) -/

/-- The cart's lines: `SELECT ... FROM cart_items ci ... WHERE ci.cart_id = ?`
in rowid order. -/
def cartLines (s : DBState) (cartId : Nat) : List CartItem :=
  s.cartItems.filter (fun ci => ci.cartId == cartId)

/-- The `JOIN software s ON ci.software_id = s.id` of the cart-lines query in
`create_purchase` (db.py:923): an inner join, so a line whose software row is
missing is dropped (unreachable while lines reference live software). -/
def joinLines (s : DBState) (lines : List CartItem) :
    List (CartItem × Software) :=
  lines.filterMap (fun ci =>
    (findSoftware s ci.softwareId).map (fun sw => (ci, sw)))

/-- The `INSERT INTO purchase_items ...` loop (db.py:931): one snapshot row
per joined cart line — copying the item's current name and developer and the
line's quantity and locked-in price — with sequential autoincrement ids. -/
def mkPurchaseItems (purchaseId : Nat) :
    Nat → List (CartItem × Software) → List PurchaseItem
  | _, [] => []
  | startId, (ci, sw) :: rest =>
    ⟨startId, purchaseId, ci.softwareId, sw.name, sw.developer, ci.quantity,
      ci.priceAtAdd⟩ :: mkPurchaseItems purchaseId (startId + 1) rest

/-- The `UPDATE software SET downloads = downloads + ? WHERE id = ?` loop
(db.py:941), one update per joined cart line. -/
def bumpDownloads : List Software → List (CartItem × Software) → List Software
  | sws, [] => sws
  | sws, (ci, _) :: rest =>
    bumpDownloads
      (sws.map (fun sw =>
        if sw.id == ci.softwareId then
          { sw with downloads := sw.downloads + ci.quantity }
        else sw)) rest

/-- `create_purchase` (db.py:893): reject a missing cart (`ValueError`) or a
zero-total cart (`Cart is empty`); otherwise insert the purchase row carrying
the cart's current total, snapshot each joined cart line into
`purchase_items`, bump each item's downloads by the line quantity, delete the
cart's lines and zero its total.  The `CHECK` constraints of
`purchase_history` and `purchase_items` are modelled; a violation aborts the
transaction with no state change. -/
def create_purchase (s : DBState) (userId : Nat)
    (paymentMethod : Option String) : Except DbErr (DBState × Nat) :=
  match findCartByUser s userId with
  | none => .error .cartNotFound
  | some cart =>
    if cart.totalPrice = 0 then .error .cartEmpty
    else if cart.totalPrice < 0 then .error .integrityError
    else if (joinLines s (cartLines s cart.id)).all
        (fun p => decide (0 < p.1.quantity) && decide (0 ≤ p.1.priceAtAdd))
    then
      .ok ({ s with
        purchases := s.purchases ++
          [⟨s.nextPurchaseId, userId, cart.totalPrice, paymentMethod,
            "completed", s.now⟩],
        purchaseItems := s.purchaseItems ++
          mkPurchaseItems s.nextPurchaseId s.nextPurchaseItemId
            (joinLines s (cartLines s cart.id)),
        software := bumpDownloads s.software (joinLines s (cartLines s cart.id)),
        cartItems := s.cartItems.filter (fun ci => !(ci.cartId == cart.id)),
        carts := setCartTotal s.carts cart.id 0 s.now,
        nextPurchaseId := s.nextPurchaseId + 1,
        nextPurchaseItemId := s.nextPurchaseItemId +
          (joinLines s (cartLines s cart.id)).length },
        s.nextPurchaseId)
    else .error .integrityError

/-- `get_purchase_items` (db.py:987): `SELECT * FROM purchase_items WHERE
purchase_id = ?`. -/
def get_purchase_items (s : DBState) (purchaseId : Nat) : List PurchaseItem :=
  s.purchaseItems.filter (fun p => p.purchaseId == purchaseId)

/-- Primary-key well-formedness of the purchase tables: ids below the
autoincrement counters. -/
def purchaseWF (s : DBState) : Prop :=
  (∀ p ∈ s.purchases, p.id < s.nextPurchaseId) ∧
  (∀ q ∈ s.purchaseItems, q.purchaseId < s.nextPurchaseId)

instance (s : DBState) : Decidable (purchaseWF s) := by
  unfold purchaseWF; exact inferInstance

lemma joinLines_fst {s : DBState} {ci : CartItem} {p : CartItem × Software}
    (h : (findSoftware s ci.softwareId).map (fun sw => (ci, sw)) = some p) :
    p.1 = ci := by
  cases hf : findSoftware s ci.softwareId with
  | none => rw [hf] at h; cases h
  | some sw => rw [hf] at h; cases h; rfl

lemma joinLines_forall2 (s : DBState) (lines : List CartItem)
    (h : ∀ ci ∈ lines, (findSoftware s ci.softwareId).isSome) :
    List.Forall₂ (fun ci (p : CartItem × Software) =>
      p.1 = ci ∧ findSoftware s ci.softwareId = some p.2)
      lines (joinLines s lines) := by
  induction lines with
  | nil => exact .nil
  | cons a t ih =>
    obtain ⟨sw, hsw⟩ :=
      Option.isSome_iff_exists.mp (h a (List.mem_cons_self _ _))
    have hstep : (findSoftware s a.softwareId).map (fun sw => (a, sw))
        = some (a, sw) := by rw [hsw]; rfl
    unfold joinLines
    rw [List.filterMap_cons, hstep]
    exact .cons ⟨rfl, hsw⟩
      (ih (fun ci hci => h ci (List.mem_cons_of_mem _ hci)))

lemma mkPurchaseItems_forall2 (pid : Nat) :
    ∀ (pairs : List (CartItem × Software)) (startId : Nat),
      List.Forall₂ (fun (p : CartItem × Software) (q : PurchaseItem) =>
        q.purchaseId = pid ∧ q.softwareId = p.1.softwareId ∧
        q.softwareName = p.2.name ∧ q.developer = p.2.developer ∧
        q.quantity = p.1.quantity ∧ q.priceAtPurchase = p.1.priceAtAdd)
        pairs (mkPurchaseItems pid startId pairs)
  | [], _ => .nil
  | (_, _) :: rest, startId =>
    .cons ⟨rfl, rfl, rfl, rfl, rfl, rfl⟩
      (mkPurchaseItems_forall2 pid rest (startId + 1))

lemma forall2_trans {α β γ : Type} {R : α → β → Prop} {S : β → γ → Prop}
    {T : α → γ → Prop} (hT : ∀ a b c, R a b → S b c → T a c) :
    ∀ {l1 : List α} {l2 : List β} {l3 : List γ},
      List.Forall₂ R l1 l2 → List.Forall₂ S l2 l3 → List.Forall₂ T l1 l3 := by
  intro l1 l2 l3 h12 h23
  induction h12 generalizing l3 with
  | nil => cases h23; exact .nil
  | cons hab _ ih =>
    cases h23 with
    | cons hbc h23t => exact .cons (hT _ _ _ hab hbc) (ih h23t)

lemma find?_map_id_pres (f : Software → Software)
    (hf : ∀ sw, (f sw).id = sw.id) (sid : Nat) (l : List Software) :
    (l.map f).find? (fun sw => sw.id == sid) =
      (l.find? (fun sw => sw.id == sid)).map f := by
  induction l with
  | nil => rfl
  | cons a t ih =>
    rw [List.map_cons]
    by_cases h : (a.id == sid) = true
    · have h2 : ((f a).id == sid) = true := by rw [hf a]; exact h
      rw [List.find?_cons_of_pos (p := fun sw : Software => sw.id == sid) _ h2,
        List.find?_cons_of_pos (p := fun sw : Software => sw.id == sid) _ h,
        Option.map_some']
    · have hb : (a.id == sid) = false := by simpa using h
      have h2 : ((f a).id == sid) = false := by rw [hf a]; exact hb
      rw [List.find?_cons_of_neg (p := fun sw : Software => sw.id == sid) _
          (by simp [h2]),
        List.find?_cons_of_neg (p := fun sw : Software => sw.id == sid) _
          (by simp [hb]),
        ih]

lemma bump_id_pres (d : Nat) (q : Int) (sw : Software) :
    ((fun sw : Software => if sw.id == d then
      { sw with downloads := sw.downloads + q } else sw) sw).id = sw.id := by
  by_cases hc : (sw.id == d) = true <;> simp [hc]

lemma bump_skip (d : Nat) (q : Int) (sw : Software)
    (h : (sw.id == d) = false) :
    (if (sw.id == d) = true then
      { sw with downloads := sw.downloads + q } else sw) = sw := by
  rw [h]
  simp

lemma bumpDownloads_not_mem (sid : Nat) :
    ∀ (pairs : List (CartItem × Software)) (sws : List Software),
      (∀ p ∈ pairs, p.1.softwareId ≠ sid) →
      (bumpDownloads sws pairs).find? (fun sw => sw.id == sid) =
        sws.find? (fun sw => sw.id == sid)
  | [], _, _ => rfl
  | (cj, swj) :: rest, sws, h => by
    unfold bumpDownloads
    rw [bumpDownloads_not_mem sid rest _
      (fun p hp => h p (List.mem_cons_of_mem _ hp))]
    rw [find?_map_id_pres _ (bump_id_pres cj.softwareId cj.quantity) sid sws]
    cases hf : sws.find? (fun sw => sw.id == sid) with
    | none => rfl
    | some sw1 =>
      have hid : sw1.id = sid := by simpa using List.find?_some hf
      have hne : (sw1.id == cj.softwareId) = false := by
        simp only [beq_eq_false_iff_ne, ne_eq, hid]
        intro hcontra
        exact h (cj, swj) (List.mem_cons_self _ _) hcontra.symm
      rw [Option.map_some']
      exact congrArg some (bump_skip cj.softwareId cj.quantity sw1 hne)

lemma bumpDownloads_mem (ci : CartItem) (sw0 : Software)
    (pairs : List (CartItem × Software)) :
    ∀ (sws : List Software),
      pairs.Pairwise (fun a b => a.1.softwareId ≠ b.1.softwareId) →
      (ci, sw0) ∈ pairs →
      (bumpDownloads sws pairs).find? (fun sw => sw.id == ci.softwareId) =
        (sws.find? (fun sw => sw.id == ci.softwareId)).map
          (fun sw => { sw with downloads := sw.downloads + ci.quantity }) := by
  induction pairs with
  | nil =>
    intro sws _ hm
    exact absurd hm (List.not_mem_nil _)
  | cons hd rest ih =>
    intro sws hpw hm
    obtain ⟨cj, swj⟩ := hd
    obtain ⟨h1, h2⟩ := List.pairwise_cons.mp hpw
    rcases List.mem_cons.mp hm with heq | hmem
    · have hcj : cj = ci := ((Prod.ext_iff.mp heq).1).symm
      rw [hcj] at h1 ⊢
      unfold bumpDownloads
      rw [bumpDownloads_not_mem ci.softwareId rest _
        (fun p hp => Ne.symm (h1 p hp))]
      rw [find?_map_id_pres _ (bump_id_pres ci.softwareId ci.quantity)
        ci.softwareId sws]
      cases hf : sws.find? (fun sw => sw.id == ci.softwareId) with
      | none => rfl
      | some sw1 =>
        have hidb := List.find?_some hf
        have hid : (sw1.id == ci.softwareId) = true := hidb
        have hsel : (if (sw1.id == ci.softwareId) = true then
            { sw1 with downloads := sw1.downloads + ci.quantity } else sw1)
            = { sw1 with downloads := sw1.downloads + ci.quantity } := by
          rw [hid]
          simp
        rw [Option.map_some', Option.map_some']
        exact congrArg some hsel
    · have hne : cj.softwareId ≠ ci.softwareId := h1 (ci, sw0) hmem
      unfold bumpDownloads
      rw [ih _ h2 hmem]
      rw [find?_map_id_pres _ (bump_id_pres cj.softwareId cj.quantity)
        ci.softwareId sws]
      cases hf : sws.find? (fun sw => sw.id == ci.softwareId) with
      | none => rfl
      | some sw1 =>
        have hidb := List.find?_some hf
        have hid : sw1.id = ci.softwareId := by simpa using hidb
        have hcond : (sw1.id == cj.softwareId) = false := by
          simp only [beq_eq_false_iff_ne, ne_eq, hid]
          exact fun hcontra => hne hcontra.symm
        rw [Option.map_some', Option.map_some', Option.map_some']
        exact congrArg some
          (congrArg
            (fun sw : Software =>
              { sw with downloads := sw.downloads + ci.quantity })
            (bump_skip cj.softwareId cj.quantity sw1 hcond))

lemma joinLines_pairwise (s : DBState) (lines : List CartItem)
    (h : lines.Pairwise (fun a b => a.softwareId ≠ b.softwareId)) :
    (joinLines s lines).Pairwise
      (fun a b => a.1.softwareId ≠ b.1.softwareId) := by
  induction lines with
  | nil => exact .nil
  | cons a t ih =>
    obtain ⟨h1, h2⟩ := List.pairwise_cons.mp h
    unfold joinLines
    rw [List.filterMap_cons]
    cases hf : (findSoftware s a.softwareId).map (fun sw => (a, sw)) with
    | none => exact ih h2
    | some p =>
      apply List.pairwise_cons.mpr
      refine ⟨?_, ih h2⟩
      intro q hq
      obtain ⟨ci, hci, hfci⟩ := List.mem_filterMap.mp hq
      rw [joinLines_fst hf, joinLines_fst hfci]
      exact h1 ci hci

lemma mkPurchaseItems_sum (pid : Nat) :
    ∀ (pairs : List (CartItem × Software)) (startId : Nat),
      ((mkPurchaseItems pid startId pairs).map
        (fun q => (q.quantity : ℚ) * q.priceAtPurchase)).sum =
      (pairs.map (fun p => (p.1.quantity : ℚ) * p.1.priceAtAdd)).sum
  | [], _ => rfl
  | (ci, sw) :: rest, startId => by
    rw [mkPurchaseItems, List.map_cons, List.map_cons, List.sum_cons,
      List.sum_cons, mkPurchaseItems_sum pid rest (startId + 1)]

lemma joinLines_sum (s : DBState) (lines : List CartItem)
    (h : ∀ ci ∈ lines, (findSoftware s ci.softwareId).isSome) :
    ((joinLines s lines).map
      (fun p => (p.1.quantity : ℚ) * p.1.priceAtAdd)).sum =
      (lines.map (fun ci => (ci.quantity : ℚ) * ci.priceAtAdd)).sum := by
  induction lines with
  | nil => rfl
  | cons a t ih =>
    obtain ⟨sw, hsw⟩ :=
      Option.isSome_iff_exists.mp (h a (List.mem_cons_self _ _))
    have hstep : (findSoftware s a.softwareId).map (fun sw => (a, sw))
        = some (a, sw) := by rw [hsw]; rfl
    unfold joinLines
    rw [List.filterMap_cons, hstep, List.map_cons, List.sum_cons,
      List.map_cons, List.sum_cons]
    exact congrArg _ (ih (fun ci hci => h ci (List.mem_cons_of_mem _ hci)))

lemma mkPurchaseItems_pid (pid : Nat) :
    ∀ (pairs : List (CartItem × Software)) (startId : Nat),
      ∀ q ∈ mkPurchaseItems pid startId pairs, q.purchaseId = pid
  | [], _, _, hq => absurd hq (List.not_mem_nil _)
  | (_, _) :: rest, startId, q, hq => by
    rw [mkPurchaseItems] at hq
    rcases List.mem_cons.mp hq with rfl | hmem
    · rfl
    · exact mkPurchaseItems_pid pid rest (startId + 1) q hmem

lemma createPurchase_ok (s : DBState) (u : Nat) (pm : Option String)
    (cart : Cart) (hc : findCartByUser s u = some cart)
    (hz : cart.totalPrice ≠ 0) (hneg : ¬ cart.totalPrice < 0)
    (hchk : (joinLines s (cartLines s cart.id)).all
      (fun p => decide (0 < p.1.quantity) && decide (0 ≤ p.1.priceAtAdd))
        = true) :
    create_purchase s u pm = .ok ({ s with
      purchases := s.purchases ++
        [⟨s.nextPurchaseId, u, cart.totalPrice, pm, "completed", s.now⟩],
      purchaseItems := s.purchaseItems ++
        mkPurchaseItems s.nextPurchaseId s.nextPurchaseItemId
          (joinLines s (cartLines s cart.id)),
      software := bumpDownloads s.software (joinLines s (cartLines s cart.id)),
      cartItems := s.cartItems.filter (fun ci => !(ci.cartId == cart.id)),
      carts := setCartTotal s.carts cart.id 0 s.now,
      nextPurchaseId := s.nextPurchaseId + 1,
      nextPurchaseItemId := s.nextPurchaseItemId +
        (joinLines s (cartLines s cart.id)).length }, s.nextPurchaseId) := by
  unfold create_purchase
  simp only [hc]
  rw [if_neg hz, if_neg hneg, if_pos hchk]

lemma sum_pos_eq_zero_iff (l : List ℚ) (hpos : ∀ x ∈ l, 0 < x) :
    l.sum = 0 ↔ l = [] := by
  induction l with
  | nil => simp
  | cons a t ih =>
    simp only [List.sum_cons]
    constructor
    · intro h
      exfalso
      have ha := hpos a (List.mem_cons_self _ _)
      have hts : 0 ≤ t.sum :=
        List.sum_nonneg
          (fun x hx => le_of_lt (hpos x (List.mem_cons_of_mem _ hx)))
      linarith
    · intro h
      cases h

/-- Claim C2 (amended): for every user whose cart has a (necessarily
nonnegative, by the table CHECK) nonzero total AND whose cart lines all still
reference existing catalog items, `create_purchase` appends exactly one
purchase row carrying the cart's total at that moment, creates one purchase
line per cart line copying the item's current name and developer and the
line's quantity and price_at_add, bumps each purchased item's downloads
counter by the line's quantity, and leaves the cart with no lines and total 0.
The existence proviso (`hjoin`) is forced by the counterexample: foreign keys
are unenforced (no `PRAGMA foreign_keys`, see C7), so `delete_software` can
leave a reachable cart with a dangling line, which the checkout's inner JOIN
(db.py:923) silently drops — producing a purchase with fewer lines than the
cart.  The remaining hypotheses are store facts SQLite does guarantee:
quantities positive and prices nonnegative (CHECKs), at most one line per
item per cart (UNIQUE(cart_id, software_id)). -/
theorem C2_create_purchase_checkout (s : DBState) (userId : Nat)
    (pm : Option String) (cart : Cart)
    (hc : findCartByUser s userId = some cart)
    (hpos : 0 < cart.totalPrice)
    (hjoin : ∀ ci ∈ cartLines s cart.id, (findSoftware s ci.softwareId).isSome)
    (hqp : ∀ ci ∈ cartLines s cart.id, 0 < ci.quantity ∧ 0 ≤ ci.priceAtAdd)
    (hnodup : ((cartLines s cart.id).map (fun ci => ci.softwareId)).Nodup) :
    ∃ s' pid, create_purchase s userId pm = .ok (s', pid) ∧
      s'.purchases = s.purchases ++
        [⟨pid, userId, cart.totalPrice, pm, "completed", s.now⟩] ∧
      (∃ newItems, s'.purchaseItems = s.purchaseItems ++ newItems ∧
        List.Forall₂ (fun (ci : CartItem) (q : PurchaseItem) =>
          q.purchaseId = pid ∧ q.softwareId = ci.softwareId ∧
          q.quantity = ci.quantity ∧ q.priceAtPurchase = ci.priceAtAdd ∧
          ∃ sw, findSoftware s ci.softwareId = some sw ∧
            q.softwareName = sw.name ∧ q.developer = sw.developer)
          (cartLines s cart.id) newItems) ∧
      (∀ ci ∈ cartLines s cart.id,
        ∀ sw, findSoftware s ci.softwareId = some sw →
          findSoftware s' ci.softwareId =
            some { sw with downloads := sw.downloads + ci.quantity }) ∧
      cartLines s' cart.id = [] ∧
      (∀ c ∈ s'.carts, c.id = cart.id → c.totalPrice = 0) := by
  have hz : cart.totalPrice ≠ 0 := ne_of_gt hpos
  have hneg : ¬ cart.totalPrice < 0 := not_lt.mpr (le_of_lt hpos)
  have hchk : (joinLines s (cartLines s cart.id)).all
      (fun p => decide (0 < p.1.quantity) && decide (0 ≤ p.1.priceAtAdd))
        = true := by
    rw [List.all_eq_true]
    intro p hp
    obtain ⟨ci, hci, hfci⟩ := List.mem_filterMap.mp hp
    have hp1 : p.1 = ci := joinLines_fst hfci
    obtain ⟨hq, hpr⟩ := hqp ci hci
    rw [Bool.and_eq_true, decide_eq_true_iff, decide_eq_true_iff, hp1]
    exact ⟨hq, hpr⟩
  refine ⟨_, s.nextPurchaseId,
    createPurchase_ok s userId pm cart hc hz hneg hchk, rfl, ?_, ?_, ?_, ?_⟩
  · refine ⟨mkPurchaseItems s.nextPurchaseId s.nextPurchaseItemId
      (joinLines s (cartLines s cart.id)), rfl, ?_⟩
    refine forall2_trans ?_
      (joinLines_forall2 s (cartLines s cart.id) hjoin)
      (mkPurchaseItems_forall2 s.nextPurchaseId
        (joinLines s (cartLines s cart.id)) s.nextPurchaseItemId)
    rintro ci p q ⟨hp1, hfind⟩ ⟨hq1, hq2, hq3, hq4, hq5, hq6⟩
    rw [← hp1]
    exact ⟨hq1, hq2, hq5, hq6, p.2, hp1 ▸ hfind, hq3, hq4⟩
  · intro ci hci sw hsw
    have hpair : (cartLines s cart.id).Pairwise
        (fun a b => a.softwareId ≠ b.softwareId) :=
      List.pairwise_map.mp hnodup
    have hjpw := joinLines_pairwise s (cartLines s cart.id) hpair
    have hmem : (ci, sw) ∈ joinLines s (cartLines s cart.id) :=
      List.mem_filterMap.mpr ⟨ci, hci, by rw [hsw]; rfl⟩
    show (bumpDownloads s.software
      (joinLines s (cartLines s cart.id))).find?
        (fun x => x.id == ci.softwareId) = _
    rw [bumpDownloads_mem ci sw (joinLines s (cartLines s cart.id))
      s.software hjpw hmem]
    rw [show s.software.find? (fun x => x.id == ci.softwareId) = some sw
      from hsw]
    rfl
  · show (s.cartItems.filter (fun ci => !(ci.cartId == cart.id))).filter
      (fun ci => ci.cartId == cart.id) = []
    rw [List.filter_filter]
    apply List.filter_eq_nil_iff.mpr
    intro a _
    by_cases hb : (a.cartId == cart.id) = true <;> simp [hb]
  · intro c hcmem hcid
    unfold setCartTotal at hcmem
    obtain ⟨c0, hc0, heq⟩ := List.mem_map.mp hcmem
    by_cases hb : (c0.id == cart.id) = true
    · rw [if_pos hb] at heq
      rw [← heq]
    · rw [if_neg hb] at heq
      subst heq
      exact absurd hcid (by simpa using hb)

/-- The concrete store of spec §8's checkout example: a cart with two lines,
quantity 1 at price 50 and quantity 2 at price 30, total 110. -/
def C2state : DBState :=
  { categories := [⟨1, "Office", none⟩],
    software := [⟨1, "A", "", 50, 1, "DevA", 0, 0, none⟩,
                 ⟨2, "B", "", 30, 1, "DevB", 0, 0, none⟩],
    carts := [⟨1, 1, 110, 0⟩],
    cartItems := [⟨1, 1, 1, 1, 50, 0⟩, ⟨2, 1, 2, 2, 30, 0⟩],
    purchases := [], purchaseItems := [], reviews := [],
    nextCartItemId := 3, nextPurchaseId := 1, nextPurchaseItemId := 1,
    nextReviewId := 1, now := 5 }

theorem C2_witness :
    ∃ s' pid, create_purchase C2state 1 (some "card") = .ok (s', pid) ∧
      s'.purchases = C2state.purchases ++
        [⟨pid, 1, (110 : ℚ), some "card", "completed", C2state.now⟩] := by
  obtain ⟨s', pid, h1, h2, -⟩ :=
    C2_create_purchase_checkout C2state 1 (some "card") ⟨1, 1, 110, 0⟩
      (by decide) (by decide) (by decide) (by decide) (by decide)
  exact ⟨s', pid, h1, h2⟩

/-- A store where user 1's cart holds one line of item 1 (quantity 1 at
price 100, total 100) and item 1 still exists in the catalog. -/
def C2pre : DBState :=
  { categories := [⟨1, "Office", none⟩],
    software := [⟨1, "X", "", 100, 1, "DevX", 0, 0, none⟩],
    carts := [⟨1, 1, 100, 0⟩],
    cartItems := [⟨1, 1, 1, 1, 100, 0⟩],
    purchases := [], purchaseItems := [], reviews := [],
    nextCartItemId := 2, nextPurchaseId := 1, nextPurchaseItemId := 1,
    nextReviewId := 1, now := 0 }

/-- `C2pre` after the admin deletes item 1 — which succeeds because foreign
keys are unenforced (see C7): the cart line dangles while the cart total
stays 100. -/
def C2dangling : DBState :=
  { C2pre with software := [] }

/-- Claim C2, counterexample: a reachable nonzero-total cart (produced by
`delete_software` on the carted item, which the unenforced foreign keys let
through) has one line, yet `create_purchase` succeeds and creates a purchase
carrying total 100 with ZERO purchase lines — the dangling line is silently
dropped by the checkout JOIN — falsifying the unqualified "one purchase line
per cart line". -/
theorem C2_counterexample :
    delete_software C2pre 1 = .ok C2dangling ∧
    (cartLines C2dangling 1).length = 1 ∧
    C2dangling.carts.map (fun c => c.totalPrice) = [100] ∧
    ((create_purchase C2dangling 1 none).map
      (fun r => (r.1.purchases.map (fun p => (p.id, p.totalPrice)),
        get_purchase_items r.1 r.2))) =
      .ok ([(1, (100 : ℚ))], ([] : List PurchaseItem)) := by decide

/-- Claim C3 (amended): `create_purchase` fails with the empty-cart error —
creating nothing — exactly when the cart's `total_price` is zero; and
zero total is equivalent to having no lines only under the extra assumption
that every line's locked-in price is strictly positive.  (The equivalence
claimed by the spec fails for reachable carts holding only zero-priced items;
see the counterexample.) -/
theorem C3_empty_cart_check (s : DBState) (userId : Nat) (pm : Option String)
    (cart : Cart) (hc : findCartByUser s userId = some cart)
    (hnn : 0 ≤ cart.totalPrice) :
    ((create_purchase s userId pm = .error .cartEmpty) ↔
      cart.totalPrice = 0) ∧
    (cartInv s.cartItems cart →
      (∀ ci ∈ cartLines s cart.id, 0 < ci.quantity ∧ 0 < ci.priceAtAdd) →
      (cart.totalPrice = 0 ↔ cartLines s cart.id = [])) := by
  constructor
  · by_cases hz : cart.totalPrice = 0
    · refine ⟨fun _ => hz, fun _ => ?_⟩
      unfold create_purchase
      simp only [hc]
      rw [if_pos hz]
    · refine ⟨fun herr => ?_, fun hcontra => absurd hcontra hz⟩
      exfalso
      unfold create_purchase at herr
      simp only [hc] at herr
      rw [if_neg hz, if_neg (not_lt.mpr hnn)] at herr
      split at herr
      · cases herr
      · simp at herr
  · intro hinv hposq
    have hterm : ∀ x ∈ (cartLines s cart.id).map
        (fun ci => (ci.quantity : ℚ) * ci.priceAtAdd), 0 < x := by
      intro x hx
      obtain ⟨ci, hci, rfl⟩ := List.mem_map.mp hx
      obtain ⟨hq, hp⟩ := hposq ci hci
      exact mul_pos (by exact_mod_cast hq) hp
    constructor
    · intro h0
      rw [hinv] at h0
      have hnil := (sum_pos_eq_zero_iff _ hterm).mp h0
      exact List.map_eq_nil_iff.mp hnil
    · intro hemp
      rw [hinv]
      show ((cartLines s cart.id).map
        (fun ci => (ci.quantity : ℚ) * ci.priceAtAdd)).sum = 0
      rw [hemp]
      rfl

/-- A store holding a single zero-priced catalog item (`price REAL CHECK
(price >= 0)` admits 0, and the admin add/edit forms in app.py accept it). -/
def C3state : DBState :=
  { categories := [⟨1, "Freeware", none⟩],
    software := [⟨1, "FreeTool", "", 0, 1, "Dev", 0, 0, none⟩],
    carts := [⟨1, 1, 0, 0⟩],
    cartItems := [], purchases := [], purchaseItems := [], reviews := [],
    nextCartItemId := 1, nextPurchaseId := 1, nextPurchaseItemId := 1,
    nextReviewId := 1, now := 0 }

/-- The state after successfully adding one unit of the zero-priced item. -/
def C3state1 : DBState :=
  { categories := [⟨1, "Freeware", none⟩],
    software := [⟨1, "FreeTool", "", 0, 1, "Dev", 0, 0, none⟩],
    carts := [⟨1, 1, 0, 0⟩],
    cartItems := [⟨1, 1, 1, 1, 0, 0⟩],
    purchases := [], purchaseItems := [], reviews := [],
    nextCartItemId := 2, nextPurchaseId := 1, nextPurchaseItemId := 1,
    nextReviewId := 1, now := 0 }

/-- Claim C3, counterexample: a reachable cart (produced by a successful
`add_to_cart` of a zero-priced item) has one line yet `total_price = 0`, and
`create_purchase` rejects it as empty — so the zero-total check and the
no-lines check do not reject the same carts. -/
theorem C3_counterexample :
    add_to_cart C3state 1 1 1 = .ok (C3state1, 1) ∧
    (cartLines C3state1 1).length = 1 ∧
    C3state1.carts.map (fun c => c.totalPrice) = [0] ∧
    create_purchase C3state1 1 none = .error .cartEmpty := by
  refine ⟨?_, by decide, by decide, by decide⟩
  norm_num [add_to_cart, findCartByUser, findSoftware, commitCart, cartTotal,
    setCartTotal, C3state, C3state1, List.find?_cons, List.filter_cons,
    Except.map]

theorem C3_witness :
    ((create_purchase C2state 1 none = .error .cartEmpty) ↔
      (⟨1, 1, 110, 0⟩ : Cart).totalPrice = 0) ∧
    (cartInv C2state.cartItems ⟨1, 1, 110, 0⟩ →
      (∀ ci ∈ cartLines C2state 1, 0 < ci.quantity ∧ 0 < ci.priceAtAdd) →
      ((⟨1, 1, 110, 0⟩ : Cart).totalPrice = 0 ↔ cartLines C2state 1 = [])) :=
  C3_empty_cart_check C2state 1 none ⟨1, 1, 110, 0⟩ (by decide) (by decide)

/-- Claim C9 (amended): when the cart-total invariant held at checkout time
AND every cart line still referenced an existing catalog item, the created
purchase's stored `total_price` equals the sum over its purchase lines of
`quantity × price_at_purchase`.  The existence proviso (`hjoin`) is forced by
the counterexample: with foreign keys unenforced, a reachable dangling-line
cart satisfies the cart-total invariant yet checkout stores total 100 with
zero purchase lines. -/
theorem C9_purchase_total_consistency (s : DBState) (userId : Nat)
    (pm : Option String) (cart : Cart) (s' : DBState) (pid : Nat)
    (hc : findCartByUser s userId = some cart)
    (hinv : cartInv s.cartItems cart)
    (hjoin : ∀ ci ∈ cartLines s cart.id, (findSoftware s ci.softwareId).isSome)
    (hwf : purchaseWF s)
    (h : create_purchase s userId pm = .ok (s', pid)) :
    ∀ p ∈ s'.purchases, p.id = pid →
      p.totalPrice = ((get_purchase_items s' pid).map
        (fun q => (q.quantity : ℚ) * q.priceAtPurchase)).sum := by
  unfold create_purchase at h
  simp only [hc] at h
  split at h
  · cases h
  split at h
  · cases h
  split at h
  case _ =>
    rename_i hz hneg hchk
    injection h with h1
    injection h1 with hs' hpid
    subst hs'
    subst hpid
    intro p hp hpid
    have hitems : get_purchase_items
        ({ s with
          purchases := s.purchases ++
            [⟨s.nextPurchaseId, userId, cart.totalPrice, pm, "completed",
              s.now⟩],
          purchaseItems := s.purchaseItems ++
            mkPurchaseItems s.nextPurchaseId s.nextPurchaseItemId
              (joinLines s (cartLines s cart.id)),
          software := bumpDownloads s.software
            (joinLines s (cartLines s cart.id)),
          cartItems := s.cartItems.filter (fun ci => !(ci.cartId == cart.id)),
          carts := setCartTotal s.carts cart.id 0 s.now,
          nextPurchaseId := s.nextPurchaseId + 1,
          nextPurchaseItemId := s.nextPurchaseItemId +
            (joinLines s (cartLines s cart.id)).length } : DBState)
        s.nextPurchaseId =
        mkPurchaseItems s.nextPurchaseId s.nextPurchaseItemId
          (joinLines s (cartLines s cart.id)) := by
      show (s.purchaseItems ++
        mkPurchaseItems s.nextPurchaseId s.nextPurchaseItemId
          (joinLines s (cartLines s cart.id))).filter
            (fun q => q.purchaseId == s.nextPurchaseId) = _
      rw [List.filter_append]
      have hold : s.purchaseItems.filter
          (fun q => q.purchaseId == s.nextPurchaseId) = [] := by
        apply List.filter_eq_nil_iff.mpr
        intro q hq
        have := hwf.2 q hq
        simp only [beq_iff_eq]
        omega
      have hnew : (mkPurchaseItems s.nextPurchaseId s.nextPurchaseItemId
          (joinLines s (cartLines s cart.id))).filter
            (fun q => q.purchaseId == s.nextPurchaseId) =
          mkPurchaseItems s.nextPurchaseId s.nextPurchaseItemId
            (joinLines s (cartLines s cart.id)) := by
        apply List.filter_eq_self.mpr
        intro q hq
        have := mkPurchaseItems_pid s.nextPurchaseId _ _ q hq
        simp [this]
      rw [hold, hnew, List.nil_append]
    rw [hitems, mkPurchaseItems_sum, joinLines_sum s _ hjoin]
    rcases List.mem_append.mp hp with hpl | hpr
    · exfalso
      have := hwf.1 p hpl
      omega
    · have hpeq : p = ⟨s.nextPurchaseId, userId, cart.totalPrice, pm,
          "completed", s.now⟩ := by simpa using hpr
      rw [hpeq]
      exact hinv
  case _ => cases h

/-- The state `create_purchase` produces from `C2state` (used to witness C9
on a concrete run). -/
def C9purchased : DBState :=
  { categories := [⟨1, "Office", none⟩],
    software := [⟨1, "A", "", 50, 1, "DevA", 1, 0, none⟩,
                 ⟨2, "B", "", 30, 1, "DevB", 2, 0, none⟩],
    carts := [⟨1, 1, 0, 5⟩],
    cartItems := [],
    purchases := [⟨1, 1, 110, some "card", "completed", 5⟩],
    purchaseItems := [⟨1, 1, 1, "A", "DevA", 1, 50⟩,
                      ⟨2, 1, 2, "B", "DevB", 2, 30⟩],
    reviews := [],
    nextCartItemId := 3, nextPurchaseId := 2, nextPurchaseItemId := 3,
    nextReviewId := 1, now := 5 }

theorem C9_witness :
    (⟨1, 1, 110, some "card", "completed", 5⟩ : Purchase).totalPrice =
      ((get_purchase_items C9purchased 1).map
        (fun q => (q.quantity : ℚ) * q.priceAtPurchase)).sum :=
  C9_purchase_total_consistency C2state 1 (some "card") ⟨1, 1, 110, 0⟩
    C9purchased 1 (by decide)
    (by norm_num [cartInv, cartTotal, C2state, List.filter_cons])
    (by decide) (by decide) (by decide)
    ⟨1, 1, 110, some "card", "completed", 5⟩ (by decide) (by decide)

/-- Claim C9, counterexample: in the reachable dangling-line store (the cart's
item was deleted after being added — possible because foreign keys are
unenforced), the cart-total invariant of the claim's proviso HOLDS
(100 = 1 × 100), yet `create_purchase` stores a purchase with total 100 whose
purchase lines sum to 0 (there are none), falsifying the claimed
purchase/lines consistency as stated. -/
theorem C9_counterexample :
    delete_software C2pre 1 = .ok C2dangling ∧
    cartInv C2dangling.cartItems ⟨1, 1, 100, 0⟩ ∧
    ((create_purchase C2dangling 1 none).map
      (fun r => (r.1.purchases.map (fun p => (p.id, p.totalPrice)),
        ((get_purchase_items r.1 r.2).map
          (fun q => (q.quantity : ℚ) * q.priceAtPurchase)).sum))) =
      .ok ([(1, (100 : ℚ))], (0 : ℚ)) ∧
    (100 : ℚ) ≠ 0 :=
  ⟨by decide,
   by norm_num [cartInv, cartTotal, C2dangling, C2pre, List.filter_cons],
   by decide, by decide⟩

/-! ### Review ledger and rating aggregator (C4, C5, C6) -/

/-- `SELECT AVG(rating) FROM reviews WHERE software_id = ?`: the arithmetic
mean of the item's review ratings.  SQL `AVG` is NULL on the empty set, which
the callers map to 0 (`or 0.0` in `add_or_update_review` / `delete_review`;
the other call sites recompute right after a write so their set is never
empty). -/
def ratingMean (reviews : List Review) (softwareId : Nat) : ℚ :=
  if (reviews.filter (fun r => r.softwareId == softwareId)).isEmpty then 0
  else ((reviews.filter (fun r => r.softwareId == softwareId)).map
      (fun r => (r.rating : ℚ))).sum /
    ((reviews.filter (fun r => r.softwareId == softwareId)).length : ℚ)

/-- `UPDATE software SET rating_avg = ? WHERE id = ?`. -/
def setRatingAvg (sws : List Software) (softwareId : Nat) (v : ℚ) :
    List Software :=
  sws.map (fun sw =>
    if sw.id == softwareId then { sw with ratingAvg := v } else sw)

/-- `add_or_update_review` (db.py:609): upsert — overwrite rating and comment
of the existing (user, software) review in place (its `created_at` column is
NOT touched by the UPDATE), or insert a new review; then recompute the item's
`rating_avg` in the same transaction.  `CHECK(rating >= 1 AND rating <= 5)`
applies to both the UPDATE and the INSERT. -/
def add_or_update_review (s : DBState) (userId softwareId : Nat)
    (rating : Int) (text : String) : Except DbErr DBState :=
  match s.reviews.find?
      (fun r => r.userId == userId && r.softwareId == softwareId) with
  | some existing =>
    if rating < 1 ∨ 5 < rating then .error .integrityError
    else
      .ok { s with
        reviews := s.reviews.map (fun r =>
          if r.id == existing.id then
            { r with rating := rating, comment := some text }
          else r),
        software := setRatingAvg s.software softwareId
          (ratingMean
            (s.reviews.map (fun r =>
              if r.id == existing.id then
                { r with rating := rating, comment := some text }
              else r)) softwareId) }
  | none =>
    if rating < 1 ∨ 5 < rating then .error .integrityError
    else
      .ok { s with
        reviews := s.reviews ++
          [⟨s.nextReviewId, userId, softwareId, rating, some text, s.now⟩],
        software := setRatingAvg s.software softwareId
          (ratingMean (s.reviews ++
            [⟨s.nextReviewId, userId, softwareId, rating, some text, s.now⟩])
            softwareId),
        nextReviewId := s.nextReviewId + 1 }

/-- `add_review` (db.py:1084): plain INSERT — a duplicate (user, software)
pair violates the UNIQUE constraint (`IntegrityError`) — then the rating_avg
recompute. -/
def add_review (s : DBState) (userId softwareId : Nat) (rating : Int)
    (comment : Option String) : Except DbErr (DBState × Nat) :=
  if rating < 1 ∨ 5 < rating then .error .integrityError
  else if s.reviews.any
      (fun r => r.userId == userId && r.softwareId == softwareId) then
    .error .integrityError
  else
    .ok ({ s with
      reviews := s.reviews ++
        [⟨s.nextReviewId, userId, softwareId, rating, comment, s.now⟩],
      software := setRatingAvg s.software softwareId
        (ratingMean (s.reviews ++
          [⟨s.nextReviewId, userId, softwareId, rating, comment, s.now⟩])
          softwareId),
      nextReviewId := s.nextReviewId + 1 }, s.nextReviewId)

/-- The dynamic `UPDATE reviews SET ...` of `update_review` (db.py:1150):
each provided field overwrites the row's value. -/
def applyReviewUpdate (reviews : List Review) (reviewId : Nat)
    (rating : Option Int) (comment : Option String) : List Review :=
  reviews.map (fun r =>
    if r.id == reviewId then
      { r with rating := rating.getD r.rating,
               comment := match comment with
                 | some c => some c
                 | none => r.comment }
    else r)

/-- `update_review` (db.py:1150): with neither field supplied nothing at all
happens; otherwise UPDATE by id (the rating CHECK fires only when a row is
actually hit), then the row is re-read — `review['software_id']` on a `None`
fetch raises `TypeError` when the id is absent — and the item's rating_avg is
recomputed. -/
def update_review (s : DBState) (reviewId : Nat) (rating : Option Int)
    (comment : Option String) : Except DbErr DBState :=
  if rating.isNone ∧ comment.isNone then .ok s
  else if (s.reviews.any (fun r => r.id == reviewId)) &&
      (match rating with
        | some rr => decide (rr < 1 ∨ 5 < rr)
        | none => false) then
    .error .integrityError
  else
    match (applyReviewUpdate s.reviews reviewId rating comment).find?
        (fun r => r.id == reviewId) with
    | none => .error .noneSubscript
    | some r =>
      .ok { s with
        reviews := applyReviewUpdate s.reviews reviewId rating comment,
        software := setRatingAvg s.software r.softwareId
          (ratingMean (applyReviewUpdate s.reviews reviewId rating comment)
            r.softwareId) }

/-- `delete_review` (db.py:1187): re-read the row first
(`review['software_id']` raises `TypeError` when absent), DELETE, then
recompute rating_avg with `or 0.0` for the now-possibly-empty set. -/
def delete_review (s : DBState) (reviewId : Nat) : Except DbErr DBState :=
  match s.reviews.find? (fun r => r.id == reviewId) with
  | none => .error .noneSubscript
  | some r =>
    .ok { s with
      reviews := s.reviews.filter (fun x => !(x.id == reviewId)),
      software := setRatingAvg s.software r.softwareId
        (ratingMean (s.reviews.filter (fun x => !(x.id == reviewId)))
          r.softwareId) }

/-- `user_has_purchased_software` (db.py:569): does some purchase of the user
with status 'completed' contain the item? -/
def user_has_purchased_software (s : DBState) (userId softwareId : Nat) :
    Bool :=
  s.purchaseItems.any (fun q =>
    q.softwareId == softwareId &&
    s.purchases.any (fun ph =>
      ph.id == q.purchaseId && ph.userId == userId &&
      ph.status == "completed"))

/-- Outcome of a review-submission route in app.py (which flash message ran /
whether the review write happened). -/
inductive ReviewRouteResult where
  | saved
  | unauthorized
  | badRating
  | emptyText
  | softwareNotFound
  | alreadyReviewed
  | dbError
  deriving Repr, DecidableEq

/-- `add_software_review` (app.py:234), the purchase-gated review route:
first the completed-purchase check, then rating parsing
(`int(request.form.get('rating'))`, modelled as `Option Int` with `none` → 0
for a missing/unparsable field), range check, empty-text check, then the
upsert. -/
def add_software_review (s : DBState) (userId softwareId : Nat)
    (ratingRaw : Option Int) (comment : String) :
    DBState × ReviewRouteResult :=
  if !(user_has_purchased_software s userId softwareId) then
    (s, .unauthorized)
  else if (ratingRaw.getD 0) < 1 ∨ 5 < (ratingRaw.getD 0) then (s, .badRating)
  else if comment.trim == "" then (s, .emptyText)
  else
    match add_or_update_review s userId softwareId (ratingRaw.getD 0)
        comment.trim with
    | .ok s' => (s', .saved)
    | .error _ => (s, .dbError)

/-- `add_review_route` (app.py:531), the second review-submission route: it
performs NO purchase check — only the rating range
(`request.form.get('rating', 5, type=int)` defaults to 5) and the existence
of the software, then a plain `add_review` whose `IntegrityError` (duplicate
review) is caught. -/
def add_review_route (s : DBState) (userId softwareId : Nat)
    (formRating : Option Int) (comment : String) :
    DBState × ReviewRouteResult :=
  if (formRating.getD 5) < 1 ∨ 5 < (formRating.getD 5) then (s, .badRating)
  else
    match findSoftware s softwareId with
    | none => (s, .softwareNotFound)
    | some _ =>
      match add_review s userId softwareId (formRating.getD 5)
          (some comment.trim) with
      | .ok (s', _) => (s', .saved)
      | .error .integrityError => (s, .alreadyReviewed)
      | .error _ => (s, .dbError)

/-- A store where user 77 has no purchases at all. -/
def C4state : DBState :=
  { categories := [⟨1, "Office", none⟩],
    software := [⟨1, "Word", "", 2490, 1, "Microsoft", 0, 0, none⟩],
    carts := [⟨1, 77, 0, 0⟩], cartItems := [], purchases := [],
    purchaseItems := [], reviews := [], nextCartItemId := 1,
    nextPurchaseId := 1, nextPurchaseItemId := 1, nextReviewId := 1,
    now := 3 }

/-- Claim C4, counterexample: user 77 has no completed purchase containing
item 1, yet the `/add_review/<id>` route accepts and writes the review — so
not every review-submission path is purchase-gated. -/
theorem C4_counterexample :
    user_has_purchased_software C4state 77 1 = false ∧
    (add_review_route C4state 77 1 (some 4) "nice").2 = .saved ∧
    (add_review_route C4state 77 1 (some 4) "nice").1.reviews.map
      (fun r => (r.userId, r.softwareId, r.rating)) = [(77, 1, 4)] := by
  decide

/-- Claim C4 (amended): only the `/software/<id>/review` route
(`add_software_review`) is gated by a completed purchase — without one it
fails Unauthorized and writes no review.  The `/add_review/<id>` route
(`add_review_route`) performs no purchase check: with an in-range rating, an
existing item and no prior review by the pair, it inserts a review for a user
with no completed purchase containing the item. -/
theorem C4_review_gating (s : DBState) (userId softwareId : Nat)
    (hnp : user_has_purchased_software s userId softwareId = false) :
    (∀ ratingRaw comment,
      add_software_review s userId softwareId ratingRaw comment =
        (s, .unauthorized)) ∧
    (∀ r comment, 1 ≤ r → r ≤ 5 →
      (findSoftware s softwareId).isSome →
      (∀ rv ∈ s.reviews,
        (rv.userId == userId && rv.softwareId == softwareId) = false) →
      (add_review_route s userId softwareId (some r) comment).2 = .saved ∧
      (add_review_route s userId softwareId (some r) comment).1.reviews.length
        = s.reviews.length + 1) := by
  constructor
  · intro ratingRaw comment
    unfold add_software_review
    rw [if_pos (by rw [hnp]; rfl)]
  · intro r comment hr1 hr5 hsw hno
    obtain ⟨sw, hswe⟩ := Option.isSome_iff_exists.mp hsw
    have hrange : ¬((some r).getD 5 < 1 ∨ 5 < (some r).getD 5) := by
      simp only [Option.getD_some]
      omega
    have hany : s.reviews.any
        (fun rv => rv.userId == userId && rv.softwareId == softwareId)
          = false := by
      rw [List.any_eq_false]
      intro rv hrv
      rw [hno rv hrv]
      exact Bool.false_ne_true
    unfold add_review_route
    rw [if_neg hrange, hswe]
    unfold add_review
    rw [if_neg (by simp only [Option.getD_some]; omega), hany]
    simp [List.length_append]

theorem C4_witness :
    add_software_review C4state 77 1 (some 4) "txt" =
      (C4state, .unauthorized) ∧
    ((add_review_route C4state 77 1 (some 4) "nice").2 = .saved ∧
      (add_review_route C4state 77 1 (some 4) "nice").1.reviews.length =
        C4state.reviews.length + 1) :=
  ⟨(C4_review_gating C4state 77 1 (by decide)).1 (some 4) "txt",
   (C4_review_gating C4state 77 1 (by decide)).2 4 "nice" (by decide)
     (by decide) (by decide) (by decide)⟩

/-- Well-formedness of `reviews` as SQLite maintains it: distinct row ids
below the autoincrement counter, and at most one row per (user, software)
pair — the `UNIQUE(user_id, software_id)` constraint. -/
def reviewWF (s : DBState) : Prop :=
  (s.reviews.map (fun r => r.id)).Nodup ∧
  s.reviews.Pairwise
    (fun a b => ¬(a.userId = b.userId ∧ a.softwareId = b.softwareId)) ∧
  ∀ r ∈ s.reviews, r.id < s.nextReviewId

instance (s : DBState) : Decidable (reviewWF s) := by
  unfold reviewWF; exact inferInstance

lemma upsert_update_shape (userId softwareId : Nat) (rating : Int)
    (text : String) (r0 : Review) (l : List Review)
    (hfind : l.find?
      (fun r => r.userId == userId && r.softwareId == softwareId) = some r0)
    (hpw : l.Pairwise
      (fun a b => ¬(a.userId = b.userId ∧ a.softwareId = b.softwareId)))
    (hnd : (l.map (fun r => r.id)).Nodup) :
    (l.map (fun r => if r.id == r0.id then
        { r with rating := rating, comment := some text } else r)).filter
      (fun r => r.userId == userId && r.softwareId == softwareId) =
      [{ r0 with rating := rating, comment := some text }] ∧
    (l.map (fun r => if r.id == r0.id then
        { r with rating := rating, comment := some text } else r)).filter
      (fun r => !(r.userId == userId && r.softwareId == softwareId)) =
      l.filter
        (fun r => !(r.userId == userId && r.softwareId == softwareId)) := by
  induction l with
  | nil => cases hfind
  | cons a t ih =>
    obtain ⟨hhead, hpwt⟩ := List.pairwise_cons.mp hpw
    rw [List.map_cons] at hnd
    have hndt : (t.map (fun r => r.id)).Nodup := (List.nodup_cons.mp hnd).2
    have hanotin : a.id ∉ t.map (fun r => r.id) := (List.nodup_cons.mp hnd).1
    by_cases hP : (a.userId == userId && a.softwareId == softwareId) = true
    · have hr0 : a = r0 := by
        rw [List.find?_cons_of_pos
          (p := fun r : Review =>
            r.userId == userId && r.softwareId == softwareId) _ hP] at hfind
        injection hfind
      subst hr0
      have haU : a.userId = userId := by
        have hx := hP
        simp only [Bool.and_eq_true, beq_iff_eq] at hx
        exact hx.1
      have haS : a.softwareId = softwareId := by
        have hx := hP
        simp only [Bool.and_eq_true, beq_iff_eq] at hx
        exact hx.2
      have htP : ∀ b ∈ t,
          (b.userId == userId && b.softwareId == softwareId) = false := by
        intro b hb
        rw [Bool.eq_false_iff]
        intro hbtrue
        simp only [Bool.and_eq_true, beq_iff_eq] at hbtrue
        exact hhead b hb ⟨by rw [haU, hbtrue.1], by rw [haS, hbtrue.2]⟩
      have htid : t.map (fun r => if r.id == a.id then
          { r with rating := rating, comment := some text } else r) = t := by
        have hpt : ∀ b ∈ t, (if b.id == a.id then
            { b with rating := rating, comment := some text } else b) = b := by
          intro b hb
          have hbne : (b.id == a.id) = false := by
            rw [beq_eq_false_iff_ne]
            intro hcontra
            exact hanotin (hcontra ▸ List.mem_map_of_mem _ hb)
          rw [hbne]
          simp
        rw [List.map_congr_left hpt, List.map_id']
      have hfa : (if a.id == a.id then
          { a with rating := rating, comment := some text } else a) =
          { a with rating := rating, comment := some text } := by
        simp
      rw [List.map_cons, htid, hfa]
      constructor
      · rw [List.filter_cons_of_pos (by simp [haU, haS])]
        rw [List.filter_eq_nil_iff.mpr (by
          intro b hb
          rw [htP b hb]
          exact Bool.false_ne_true)]
      · rw [List.filter_cons_of_neg (by simp [haU, haS]),
          List.filter_cons_of_neg (by simp [hP])]
    · have hPb : (a.userId == userId && a.softwareId == softwareId)
          = false := by
        rwa [Bool.not_eq_true] at hP
      rw [List.find?_cons_of_neg
        (p := fun r : Review =>
          r.userId == userId && r.softwareId == softwareId) _ hP] at hfind
      have hr0t : r0 ∈ t := List.mem_of_find?_eq_some hfind
      have hane : (a.id == r0.id) = false := by
        rw [beq_eq_false_iff_ne]
        intro hcontra
        exact hanotin (hcontra ▸ List.mem_map_of_mem _ hr0t)
      obtain ⟨ih1, ih2⟩ := ih hfind hpwt hndt
      have hfa : (if a.id == r0.id then
          { a with rating := rating, comment := some text } else a) = a := by
        rw [hane]
        simp
      rw [List.map_cons, hfa]
      constructor
      · rw [List.filter_cons_of_neg (by simp [hPb]), ih1]
      · rw [List.filter_cons_of_pos (by simp [hPb]),
          List.filter_cons_of_pos (by simp [hPb]),
          ih2]

/-- Claim C5 (amended): `add_or_update_review` is a true upsert — afterwards
exactly one review row exists for the (user, item) pair, carrying the new
rating and text; when a row already existed it is overwritten in place
keeping its ORIGINAL `created_at` (the claimed timestamp overwrite does not
happen — see the counterexample), and when none existed a new row with the
current time is inserted; all other rows are untouched, and the uniqueness
discipline is preserved. -/
theorem C5_review_upsert (s : DBState) (userId softwareId : Nat)
    (rating : Int) (text : String) (s' : DBState)
    (hwf : reviewWF s)
    (h : add_or_update_review s userId softwareId rating text = .ok s') :
    reviewWF s' ∧
    (∃ r, s'.reviews.filter
        (fun r => r.userId == userId && r.softwareId == softwareId) = [r] ∧
      r.rating = rating ∧ r.comment = some text ∧
      (match s.reviews.find?
          (fun r0 => r0.userId == userId && r0.softwareId == softwareId) with
        | some r0 => r.createdAt = r0.createdAt
        | none => r.createdAt = s.now)) ∧
    s'.reviews.filter
        (fun r => !(r.userId == userId && r.softwareId == softwareId)) =
      s.reviews.filter
        (fun r => !(r.userId == userId && r.softwareId == softwareId)) := by
  obtain ⟨hnd, hpw, hbound⟩ := hwf
  unfold add_or_update_review at h
  split at h
  case _ existing hfind =>
    split at h
    · cases h
    · injection h with hs'
      subst hs'
      obtain ⟨hfilP, hfilN⟩ := upsert_update_shape userId softwareId rating
        text existing s.reviews hfind hpw hnd
      have hpres : ∀ r : Review,
          ((if r.id == existing.id then
            { r with rating := rating, comment := some text } else r).userId
              = r.userId ∧
          (if r.id == existing.id then
            { r with rating := rating, comment := some text } else r).softwareId
              = r.softwareId ∧
          (if r.id == existing.id then
            { r with rating := rating, comment := some text } else r).id
              = r.id) := by
        intro r
        by_cases hc : (r.id == existing.id) = true <;> simp [hc]
      refine ⟨⟨?_, ?_, ?_⟩,
        ⟨{ existing with rating := rating, comment := some text },
          hfilP, rfl, rfl, ?_⟩, hfilN⟩
      · have hids : (s.reviews.map (fun r =>
            if r.id == existing.id then
              { r with rating := rating, comment := some text } else r)).map
            (fun r => r.id) = s.reviews.map (fun r => r.id) := by
          rw [List.map_map]
          apply List.map_congr_left
          intro r _
          exact (hpres r).2.2
        rw [hids]
        exact hnd
      · exact hpw.map _ (fun a b hab hcontra => hab
          ⟨((hpres a).1.symm.trans hcontra.1).trans (hpres b).1,
           ((hpres a).2.1.symm.trans hcontra.2).trans (hpres b).2.1⟩)
      · intro r' hr'
        obtain ⟨r, hr, heq⟩ := List.mem_map.mp hr'
        have hid : r'.id = r.id := heq ▸ (hpres r).2.2
        rw [hid]
        exact hbound r hr
      · rfl
  case _ hfind =>
    split at h
    · cases h
    · injection h with hs'
      subst hs'
      have hall : ∀ r ∈ s.reviews,
          (r.userId == userId && r.softwareId == softwareId) = false := by
        intro r hr
        have hx := List.find?_eq_none.mp hfind r hr
        rwa [Bool.not_eq_true] at hx
      have hPnew : ((userId == userId : Bool) && (softwareId == softwareId))
          = true := by simp
      refine ⟨⟨?_, ?_, ?_⟩,
        ⟨⟨s.nextReviewId, userId, softwareId, rating, some text, s.now⟩,
          ?_, rfl, rfl, ?_⟩, ?_⟩
      · rw [List.map_append, List.nodup_append]
        refine ⟨hnd, List.nodup_singleton _, ?_⟩
        intro x hx hxy
        obtain ⟨r, hr, rfl⟩ := List.mem_map.mp hx
        have h1 := hbound r hr
        have h2 : r.id = s.nextReviewId := by simpa using hxy
        omega
      · rw [List.pairwise_append]
        refine ⟨hpw, List.pairwise_singleton _ _, ?_⟩
        intro a ha b hb hcontra
        have hbeq : b = (⟨s.nextReviewId, userId, softwareId, rating,
            some text, s.now⟩ : Review) := by simpa using hb
        have := hall a ha
        rw [Bool.eq_false_iff] at this
        apply this
        simp only [Bool.and_eq_true, beq_iff_eq]
        rw [hbeq] at hcontra
        exact ⟨hcontra.1, hcontra.2⟩
      · intro r hr
        rcases List.mem_append.mp hr with hl | hrr
        · exact Nat.lt_succ_of_lt (hbound r hl)
        · have : r = ⟨s.nextReviewId, userId, softwareId, rating,
              some text, s.now⟩ := by simpa using hrr
          rw [this]
          exact Nat.lt_succ_self _
      · rw [List.filter_append,
          List.filter_eq_nil_iff.mpr (fun r hr => by
            rw [hall r hr]; exact Bool.false_ne_true),
          List.nil_append]
        simp
      · rfl
      · rw [List.filter_append]
        simp

/-- A store where user 1 already reviewed item 1 (rating 3) at time 5; the
clock now reads 9. -/
def C5state : DBState :=
  { categories := [⟨1, "Office", none⟩],
    software := [⟨1, "Word", "", 2490, 1, "Microsoft", 0, 3, none⟩],
    carts := [], cartItems := [], purchases := [], purchaseItems := [],
    reviews := [⟨1, 1, 1, 3, some "old", 5⟩],
    nextCartItemId := 1, nextPurchaseId := 1, nextPurchaseItemId := 1,
    nextReviewId := 2, now := 9 }

/-- Claim C5, counterexample: resubmitting the review at time 9 succeeds but
leaves the row's `created_at` at its original value 5 — the UPDATE in
`add_or_update_review` sets only rating and comment, so the timestamp is not
overwritten as the claim states. -/
theorem C5_counterexample :
    ((add_or_update_review C5state 1 1 5 "new").map
      (fun s' => s'.reviews.map (fun r => r.createdAt))) = .ok [5] ∧
    C5state.now = 9 ∧ (5 : Nat) ≠ 9 := by decide

/-- The store `add_or_update_review C5state 1 1 5 "new"` produces. -/
def C5updated : DBState :=
  { C5state with
    reviews := [⟨1, 1, 1, 5, some "new", 5⟩],
    software := [⟨1, "Word", "", 2490, 1, "Microsoft", 0, 5, none⟩] }

theorem C5_witness :
    ∃ r, C5updated.reviews.filter
        (fun r => r.userId == 1 && r.softwareId == 1) = [r] ∧
      r.rating = 5 ∧ r.comment = some "new" ∧
      (match C5state.reviews.find?
          (fun r0 => r0.userId == 1 && r0.softwareId == 1) with
        | some r0 => r.createdAt = r0.createdAt
        | none => r.createdAt = C5state.now) := by
  have h : add_or_update_review C5state 1 1 5 "new" = .ok C5updated := by
    norm_num [add_or_update_review, C5state, C5updated, setRatingAvg,
      ratingMean, List.find?_cons, List.filter_cons]
  exact (C5_review_upsert C5state 1 1 5 "new" C5updated (by decide) h).2.1

/-- The rating-aggregation invariant for one item id: every software row with
that id carries the arithmetic mean of the item's current reviews (0 when
none remain). -/
def ratingAvgInvAt (s : DBState) (softwareId : Nat) : Prop :=
  ∀ sw ∈ s.software, sw.id = softwareId →
    sw.ratingAvg = ratingMean s.reviews softwareId

instance (s : DBState) (softwareId : Nat) :
    Decidable (ratingAvgInvAt s softwareId) := by
  unfold ratingAvgInvAt; exact inferInstance

lemma setRatingAvg_inv (sws : List Software) (sid : Nat) (v : ℚ) :
    ∀ sw ∈ setRatingAvg sws sid v, sw.id = sid → sw.ratingAvg = v := by
  intro sw' hsw' hid
  unfold setRatingAvg at hsw'
  obtain ⟨sw, hsw, heq⟩ := List.mem_map.mp hsw'
  by_cases hb : (sw.id == sid) = true
  · rw [if_pos hb] at heq
    rw [← heq]
  · rw [if_neg hb] at heq
    subst heq
    exact absurd hid (by simpa using hb)

/-- Claim C6: after every successful review mutation — upsert via
`add_or_update_review`, insert via `add_review`, update via `update_review`
(when it actually updates something), delete via `delete_review` — the
affected item's `rating_avg` equals the arithmetic mean of its then-current
reviews' ratings, 0 when none remain. -/
theorem C6_rating_avg_recompute :
    (∀ s u sid rating text s',
      add_or_update_review s u sid rating text = .ok s' →
      ratingAvgInvAt s' sid) ∧
    (∀ s u sid rating comment s' rid,
      add_review s u sid rating comment = .ok (s', rid) →
      ratingAvgInvAt s' sid) ∧
    (∀ s rid rating comment s',
      update_review s rid rating comment = .ok s' →
      (rating.isSome ∨ comment.isSome) →
      ∃ rv ∈ s'.reviews, rv.id = rid ∧ ratingAvgInvAt s' rv.softwareId) ∧
    (∀ s rid s',
      delete_review s rid = .ok s' →
      ∃ rv, s.reviews.find? (fun r => r.id == rid) = some rv ∧
        ratingAvgInvAt s' rv.softwareId) := by
  refine ⟨?_, ?_, ?_, ?_⟩
  · intro s u sid rating text s' h
    unfold add_or_update_review at h
    split at h
    case _ existing hfind =>
      split at h
      · cases h
      · injection h with hs'
        subst hs'
        intro sw hsw hid
        exact setRatingAvg_inv _ _ _ sw hsw hid
    case _ hfind =>
      split at h
      · cases h
      · injection h with hs'
        subst hs'
        intro sw hsw hid
        exact setRatingAvg_inv _ _ _ sw hsw hid
  · intro s u sid rating comment s' rid h
    unfold add_review at h
    split at h
    · cases h
    split at h
    · cases h
    injection h with h1
    injection h1 with hs' hrid
    subst hs'
    intro sw hsw hid
    exact setRatingAvg_inv _ _ _ sw hsw hid
  · intro s rid rating comment s' h hsome
    unfold update_review at h
    split at h
    case _ hcond =>
      exfalso
      rcases hsome with h1 | h1
      · cases hr : rating with
        | none => rw [hr] at h1; cases h1
        | some v => rw [hr] at hcond; exact absurd hcond.1 (by simp)
      · cases hcm : comment with
        | none => rw [hcm] at h1; cases h1
        | some v => rw [hcm] at hcond; exact absurd hcond.2 (by simp)
    case _ hcond =>
      split at h
      · cases h
      split at h
      · cases h
      case _ r hfind =>
        injection h with hs'
        subst hs'
        refine ⟨r, List.mem_of_find?_eq_some hfind, ?_, ?_⟩
        · have := List.find?_some hfind
          simpa using this
        · intro sw hsw hid
          exact setRatingAvg_inv _ _ _ sw hsw hid
  · intro s rid s' h
    unfold delete_review at h
    split at h
    · cases h
    case _ r hfind =>
      injection h with hs'
      subst hs'
      refine ⟨r, hfind, ?_⟩
      intro sw hsw hid
      exact setRatingAvg_inv _ _ _ sw hsw hid

/-- Store after `add_review C4state 77 1 4 (some "nice")`. -/
def C6added : DBState :=
  { C4state with
    reviews := [⟨1, 77, 1, 4, some "nice", 3⟩],
    software := [⟨1, "Word", "", 2490, 1, "Microsoft", 0, 4, none⟩],
    nextReviewId := 2 }

/-- Store after `update_review C5state 1 (some 4) none`. -/
def C6updated2 : DBState :=
  { C5state with
    reviews := [⟨1, 1, 1, 4, some "old", 5⟩],
    software := [⟨1, "Word", "", 2490, 1, "Microsoft", 0, 4, none⟩] }

/-- Store after `delete_review C5state 1`. -/
def C6deleted : DBState :=
  { C5state with
    reviews := [],
    software := [⟨1, "Word", "", 2490, 1, "Microsoft", 0, 0, none⟩] }

theorem C6_witness :
    ratingAvgInvAt C5updated 1 ∧
    ratingAvgInvAt C6added 1 ∧
    (∃ rv ∈ C6updated2.reviews, rv.id = 1 ∧
      ratingAvgInvAt C6updated2 rv.softwareId) ∧
    (∃ rv, C5state.reviews.find? (fun r => r.id == 1) = some rv ∧
      ratingAvgInvAt C6deleted rv.softwareId) := by
  have h1 : add_or_update_review C5state 1 1 5 "new" = .ok C5updated := by
    norm_num [add_or_update_review, C5state, C5updated, setRatingAvg,
      ratingMean, List.find?_cons, List.filter_cons]
  have h2 : add_review C4state 77 1 4 (some "nice") = .ok (C6added, 1) := by
    norm_num [add_review, C4state, C6added, setRatingAvg, ratingMean,
      List.filter_cons]
  have h3 : update_review C5state 1 (some 4) none = .ok C6updated2 := by
    norm_num [update_review, applyReviewUpdate, C5state, C6updated2,
      setRatingAvg, ratingMean, List.find?_cons, List.filter_cons]
  have h4 : delete_review C5state 1 = .ok C6deleted := by decide
  exact ⟨C6_rating_avg_recompute.1 C5state 1 1 5 "new" C5updated h1,
    C6_rating_avg_recompute.2.1 C4state 77 1 4 (some "nice") C6added 1 h2,
    C6_rating_avg_recompute.2.2.1 C5state 1 (some 4) none C6updated2 h3
      (Or.inl rfl),
    C6_rating_avg_recompute.2.2.2 C5state 1 C6deleted h4⟩

/-! ### Catalog mutations and purchase-history reads (C7, C8, C10) -/

/-- `update_software` (db.py:504): dynamic UPDATE of exactly the provided
fields; with none provided nothing happens at all.  `CHECK(price >= 0)` can
only fire when some row is actually updated. -/
def update_software (s : DBState) (softwareId : Nat)
    (name description : Option String) (price : Option ℚ)
    (categoryId : Option Nat) (developer imageUrl : Option String) :
    Except DbErr DBState :=
  if name.isNone ∧ description.isNone ∧ price.isNone ∧ categoryId.isNone ∧
      developer.isNone ∧ imageUrl.isNone then .ok s
  else if (s.software.any (fun sw => sw.id == softwareId)) &&
      (match price with | some p => decide (p < 0) | none => false) then
    .error .integrityError
  else
    .ok { s with software := s.software.map (fun sw =>
      if sw.id == softwareId then
        { sw with name := name.getD sw.name,
                  description := description.getD sw.description,
                  price := price.getD sw.price,
                  categoryId := categoryId.getD sw.categoryId,
                  developer := developer.getD sw.developer,
                  imageUrl := imageUrl.or sw.imageUrl }
      else sw) }

/-- One item entry of `get_purchases_with_items` (db.py:999).  The query
selects `pi.*` together with `s.name AS software_name`; the duplicated column
name resolves — per `sqlite3.Row`'s first-match rule — to the snapshot column
`purchase_items.software_name`, so `name` is the snapshot name and `price`
the snapshot `price_at_purchase`. -/
structure PurchasedItemView where
  id : Nat
  softwareId : Nat
  name : String
  quantity : Int
  price : ℚ
  deriving Repr, DecidableEq

/-- `get_purchases_with_items` (db.py:999): the user's purchases (optionally
limited), each with its item views; the inner `JOIN software` only gates each
line on the software row's existence, since the joined columns are shadowed
in the result.  Result order (`purchased_at DESC`, `pi.id`) is not modelled;
the claims about this reader are order-independent. -/
def get_purchases_with_items (s : DBState) (userId : Nat)
    (limit : Option Nat) : List (Purchase × List PurchasedItemView) :=
  (match limit with
    | some n =>
      (s.purchases.filter (fun p : Purchase => p.userId == userId)).take n
    | none => s.purchases.filter (fun p : Purchase => p.userId == userId)).map
    (fun p : Purchase =>
      (p, (s.purchaseItems.filter
        (fun q : PurchaseItem => q.purchaseId == p.id)).filterMap
        (fun q : PurchaseItem => (findSoftware s q.softwareId).map
          (fun _ => (⟨q.id, q.softwareId, q.softwareName, q.quantity,
            q.priceAtPurchase⟩ : PurchasedItemView)))))

/-- A store with one category referenced by a software row, which is in turn
referenced by a purchase line and a cart line. -/
def C7state : DBState :=
  { categories := [⟨1, "Office", none⟩],
    software := [⟨1, "Word", "", 2490, 1, "Microsoft", 0, 0, none⟩],
    carts := [⟨1, 1, 2490, 0⟩],
    cartItems := [⟨1, 1, 1, 1, 2490, 0⟩],
    purchases := [⟨1, 1, 2490, none, "completed", 0⟩],
    purchaseItems := [⟨1, 1, 1, "Word", "Microsoft", 1, 2490⟩],
    reviews := [], nextCartItemId := 2, nextPurchaseId := 2,
    nextPurchaseItemId := 2, nextReviewId := 1, now := 0 }

/-- Claim C7 evaluated at the failing input (code bug): because the
connection never enables foreign-key enforcement, `delete_category` on a
category still referenced by a software item succeeds and removes the row,
and `delete_software` on an item referenced by a purchase line and a cart
line succeeds likewise — neither raises the Conflict (IntegrityError) the
schema's `ON DELETE RESTRICT` and the functions' own exception handlers
anticipate, and the referencing rows are left dangling. -/
theorem C7_fk_not_enforced :
    (delete_category C7state 1 = .ok { C7state with categories := [] } ∧
      C7state.software.map (fun sw => sw.categoryId) = [1]) ∧
    (delete_software C7state 1 = .ok { C7state with software := [] } ∧
      C7state.purchaseItems.map (fun q => q.softwareId) = [1] ∧
      C7state.cartItems.map (fun ci => ci.softwareId) = [1]) := by decide

/-- Claim C8: catalog edits through `update_software` never change purchase
rows or purchase lines, and both purchase-history readers keep returning the
captured snapshot data (`get_purchases_with_items` returns the snapshot name
and price by the duplicated-column rule). -/
theorem C8_purchase_snapshot_immutable (s : DBState) (softwareId : Nat)
    (name description : Option String) (price : Option ℚ)
    (categoryId : Option Nat) (developer imageUrl : Option String)
    (s' : DBState)
    (h : update_software s softwareId name description price categoryId
      developer imageUrl = .ok s') :
    s'.purchases = s.purchases ∧
    s'.purchaseItems = s.purchaseItems ∧
    (∀ pid, get_purchase_items s' pid = get_purchase_items s pid) ∧
    (∀ uid lim, get_purchases_with_items s' uid lim =
      get_purchases_with_items s uid lim) := by
  unfold update_software at h
  split at h
  · injection h with hs'
    subst hs'
    exact ⟨rfl, rfl, fun _ => rfl, fun _ _ => rfl⟩
  split at h
  · cases h
  injection h with hs'
  subst hs'
  refine ⟨rfl, rfl, fun _ => rfl, ?_⟩
  intro uid lim
  unfold get_purchases_with_items
  have hfid : ∀ sw : Software,
      ((fun sw : Software =>
        if sw.id == softwareId then
          { sw with name := name.getD sw.name,
                    description := description.getD sw.description,
                    price := price.getD sw.price,
                    categoryId := categoryId.getD sw.categoryId,
                    developer := developer.getD sw.developer,
                    imageUrl := imageUrl.or sw.imageUrl }
        else sw) sw).id = sw.id := by
    intro sw
    by_cases hc : (sw.id == softwareId) = true <;> simp [hc]
  have hfun : ∀ q : PurchaseItem,
      (findSoftware { s with software := s.software.map (fun sw =>
        if sw.id == softwareId then
          { sw with name := name.getD sw.name,
                    description := description.getD sw.description,
                    price := price.getD sw.price,
                    categoryId := categoryId.getD sw.categoryId,
                    developer := developer.getD sw.developer,
                    imageUrl := imageUrl.or sw.imageUrl }
        else sw) } q.softwareId).map
        (fun _ => (⟨q.id, q.softwareId, q.softwareName, q.quantity,
          q.priceAtPurchase⟩ : PurchasedItemView)) =
      (findSoftware s q.softwareId).map
        (fun _ => (⟨q.id, q.softwareId, q.softwareName, q.quantity,
          q.priceAtPurchase⟩ : PurchasedItemView)) := by
    intro q
    show ((s.software.map _).find?
      (fun sw : Software => sw.id == q.softwareId)).map _ = _
    rw [find?_map_id_pres _ hfid q.softwareId]
    unfold findSoftware
    cases s.software.find? (fun sw : Software => sw.id == q.softwareId) <;>
      rfl
  apply List.map_congr_left
  intro p _
  refine congrArg (fun items => (p, items)) ?_
  apply List.filterMap_congr
  intro q _
  exact hfun q

/-- `C9purchased` after an admin renames item 1 to "A2" and reprices it to
999 through `update_software`. -/
def C8updated : DBState :=
  { C9purchased with
    software := [⟨1, "A2", "", 999, 1, "DevA", 1, 0, none⟩,
                 ⟨2, "B", "", 30, 1, "DevB", 2, 0, none⟩] }

theorem C8_witness :
    get_purchase_items C8updated 1 = get_purchase_items C9purchased 1 ∧
    get_purchases_with_items C8updated 1 none =
      get_purchases_with_items C9purchased 1 none :=
  ⟨(C8_purchase_snapshot_immutable C9purchased 1 (some "A2") none (some 999)
      none none none C8updated (by decide)).2.2.1 1,
   (C8_purchase_snapshot_immutable C9purchased 1 (some "A2") none (some 999)
      none none none C8updated (by decide)).2.2.2 1 none⟩

/-- Claim C10: for an `item_id` with no matching cart line,
`update_cart_item_quantity` with a positive quantity does not fail with the
NotFound `ValueError` but with the unclassified `TypeError` from subscripting
the `None` fetch result, whereas the same call with quantity ≤ 0 delegates to
`remove_from_cart`, which raises the NotFound `ValueError`. -/
theorem C10_missing_item_asymmetry (s : DBState) (itemId : Nat) (q : Int)
    (habs : s.cartItems.find? (fun ci => ci.id == itemId) = none) :
    (0 < q → update_cart_item_quantity s itemId q = .error .noneSubscript) ∧
    (q ≤ 0 → update_cart_item_quantity s itemId q =
      .error .cartItemNotFound) := by
  constructor
  · intro hq
    unfold update_cart_item_quantity
    rw [if_neg (by omega)]
    simp only [habs]
  · intro hq
    unfold update_cart_item_quantity
    rw [if_pos hq]
    unfold remove_from_cart
    simp only [habs]

theorem C10_witness :
    update_cart_item_quantity C1initState 42 3 = .error .noneSubscript ∧
    update_cart_item_quantity C1initState 42 0 = .error .cartItemNotFound :=
  ⟨(C10_missing_item_asymmetry C1initState 42 3 (by decide)).1 (by decide),
   (C10_missing_item_asymmetry C1initState 42 0 (by decide)).2 (by decide)⟩

end SoftwareShop
